import Mathlib

/-! Wow-temp-mail: a model of `app.js`.

The browser script `app.js` drives a disposable mailbox of the mail.tm service.  This file
embeds it as pure functions over an explicit state:

* the three script variables `pollTimer`, `lastMessageIds`, `currentAccount`;
* the `localStorage` entry under `LS_KEY`;
* the interval timers that are live in the browser;
* the page elements the script writes to;
* a trace of what the script does to the outside world (requests sent to the provider,
  dialogs shown, the "new mail" tag switched on).

Every handler is run to completion: the answers the provider gives to the requests of a handler
are arguments of the function that models it.  The one place where the script itself splits a
flow is `loadInbox`, which `updateUIAccount` starts without waiting for it; it is modelled by
`loadInboxStart` (up to the request) and `loadInboxFinish` (from the response on).

The function `readFull`, which fills a pop-up window with one message, reads `currentAccount`
and writes none of the above; it is left out.

Identifiers of messages and of accounts, domains and the texts of a message are taken at the
types the mail.tm interface gives them: they are strings, and a field that is absent is `none`.
The token of a `POST /token` answer and the value read back from `localStorage` are arbitrary
values of `JSON.parse`, because the script tests nothing but their truthiness before it uses
them.
-/

namespace WowTempMail

/-! ## The JavaScript `Set` of message identifiers -/

/-- A JavaScript `Set` of strings: its elements in insertion order. -/
structure JsSet where
  items : List String
  deriving DecidableEq, Repr

namespace JsSet

/-- The value of `new Set()`. -/
def empty : JsSet := ⟨[]⟩

/-- The method `has`. -/
def has (s : JsSet) (x : String) : Bool := decide (x ∈ s.items)

/-- The method `add`: an element already present is not added again. -/
def add (s : JsSet) (x : String) : JsSet :=
  if s.has x then s else ⟨s.items ++ [x]⟩

/-- The value of `new Set(xs)`: the elements of `xs` are added one after the other. -/
def ofList (xs : List String) : JsSet := xs.foldl add empty

/-- The property `size`. -/
def size (s : JsSet) : Nat := s.items.length

end JsSet

/-! ## JavaScript values and JSON -/

/-- A number that `JSON.parse` can produce: a zero of either sign, a finite number that is not
zero, given by the text `Number.prototype.toString` prints for it, or an infinity (a literal
such as `1e999` overflows to `Infinity`). -/
inductive JsNumber
  | zero
  | negZero
  | finite (text : String)
  | infinity
  | negInfinity
  deriving DecidableEq, Repr

mutual
/-- A value that `JSON.parse` can produce, or `undefined`, the value of a property that is
absent. -/
inductive JsVal
  | undefined
  | null
  | bool (b : Bool)
  | number (n : JsNumber)
  | string (s : String)
  | array (items : JsList)
  | object (fields : JsFields)
  deriving DecidableEq, Repr
/-- The elements of an array. -/
inductive JsList
  | nil
  | cons (head : JsVal) (tail : JsList)
  deriving DecidableEq, Repr
/-- The own properties of an object, each key once. -/
inductive JsFields
  | nil
  | cons (key : String) (value : JsVal) (tail : JsFields)
  deriving DecidableEq, Repr
end

/-- Truthiness of a value. -/
def JsVal.isTruthy : JsVal → Bool
  | JsVal.undefined => false
  | JsVal.null => false
  | JsVal.bool b => b
  | JsVal.number JsNumber.zero => false
  | JsVal.number JsNumber.negZero => false
  | JsVal.number _ => true
  | JsVal.string s => s != ""
  | JsVal.array _ => true
  | JsVal.object _ => true

/-- The value of the property `key` among the properties of an object. -/
def JsFields.get (key : String) : JsFields → JsVal
  | JsFields.nil => JsVal.undefined
  | JsFields.cons k v rest => if k = key then v else JsFields.get key rest

/-- The value of `v.key` for the keys the script reads (`address`, `password`, `token`), on a
value `v` that is neither `null` nor `undefined`: a property of an object, `undefined` on
anything else. -/
def JsVal.property (v : JsVal) (key : String) : JsVal :=
  match v with
  | JsVal.object fields => fields.get key
  | _ => JsVal.undefined

/-- The text of a number. -/
def numberText : JsNumber → String
  | JsNumber.zero => "0"
  | JsNumber.negZero => "0"
  | JsNumber.finite text => text
  | JsNumber.infinity => "Infinity"
  | JsNumber.negInfinity => "-Infinity"

mutual
/-- The conversion of a value to a string, as string concatenation applies it. -/
def jsToString : JsVal → String
  | JsVal.undefined => "undefined"
  | JsVal.null => "null"
  | JsVal.bool b => if b then "true" else "false"
  | JsVal.number n => numberText n
  | JsVal.string s => s
  | JsVal.array items => joinItems items
  | JsVal.object _ => "[object Object]"
/-- The method `join` of an array, with a comma. -/
def joinItems : JsList → String
  | JsList.nil => ""
  | JsList.cons x JsList.nil => itemText x
  | JsList.cons x (JsList.cons y rest) => itemText x ++ "," ++ joinItems (JsList.cons y rest)
/-- The text of one element in `join`: empty for `null` and `undefined`. -/
def itemText : JsVal → String
  | JsVal.undefined => ""
  | JsVal.null => ""
  | JsVal.bool b => if b then "true" else "false"
  | JsVal.number n => numberText n
  | JsVal.string s => s
  | JsVal.array items => joinItems items
  | JsVal.object _ => "[object Object]"
end

/-- The text an element shows after `textContent = v`: `null` gives the empty text. -/
def textContent (v : JsVal) : String :=
  match v with
  | JsVal.null => ""
  | _ => jsToString v

mutual
/-- The value `JSON.parse(JSON.stringify(v))`, for a value `v` that is not `undefined`:
`JSON.stringify` writes an infinity as `null` and a negative zero as `0`, leaves out the
properties whose value is `undefined`, writes `null` for such an element of an array, and writes
every other number, every string and every boolean so that it is read back as it was. -/
def jsonImage : JsVal → JsVal
  | JsVal.undefined => JsVal.undefined
  | JsVal.null => JsVal.null
  | JsVal.bool b => JsVal.bool b
  | JsVal.number JsNumber.zero => JsVal.number JsNumber.zero
  | JsVal.number JsNumber.negZero => JsVal.number JsNumber.zero
  | JsVal.number (JsNumber.finite text) => JsVal.number (JsNumber.finite text)
  | JsVal.number JsNumber.infinity => JsVal.null
  | JsVal.number JsNumber.negInfinity => JsVal.null
  | JsVal.string s => JsVal.string s
  | JsVal.array items => JsVal.array (jsonImageItems items)
  | JsVal.object fields => JsVal.object (jsonImageFields fields)
/-- The elements of an array after `JSON.stringify` and `JSON.parse`. -/
def jsonImageItems : JsList → JsList
  | JsList.nil => JsList.nil
  | JsList.cons JsVal.undefined rest => JsList.cons JsVal.null (jsonImageItems rest)
  | JsList.cons x rest => JsList.cons (jsonImage x) (jsonImageItems rest)
/-- The properties of an object after `JSON.stringify` and `JSON.parse`. -/
def jsonImageFields : JsFields → JsFields
  | JsFields.nil => JsFields.nil
  | JsFields.cons _ JsVal.undefined rest => jsonImageFields rest
  | JsFields.cons k v rest => JsFields.cons k (jsonImage v) (jsonImageFields rest)
end

/-- A text, described by what `JSON.parse` makes of it: the parse throws, or it yields a
value. -/
inductive JsonText
  | malformed
  | document (value : JsVal)
  deriving DecidableEq, Repr

/-- The function `JSON.parse` on a text; `none` when it throws. -/
def jsonParse : JsonText → Option JsVal
  | JsonText.malformed => none
  | JsonText.document value => some value

/-- The function `JSON.stringify` on an object: the text it writes is the one `JSON.parse` reads
as `jsonImage v`. -/
def jsonStringify (v : JsVal) : JsonText := JsonText.document (jsonImage v)

/-! ## Data -/

/-- The credential object, by the three properties the script reads: `address`, `password` and
`token`. -/
structure Account where
  address : JsVal
  password : JsVal
  token : JsVal
  deriving DecidableEq, Repr

/-- The object literal `{ address, password, token }`. -/
def Account.toJs (acc : Account) : JsVal :=
  JsVal.object (JsFields.cons "address" acc.address
    (JsFields.cons "password" acc.password (JsFields.cons "token" acc.token JsFields.nil)))

/-- The credential object that a value is, when the script takes it for one. -/
def Account.ofJs (v : JsVal) : Account :=
  { address := v.property "address", password := v.property "password",
    token := v.property "token" }

/-- An entry of the message listing. `fromAddress` is `m.from?.address`. -/
structure Message where
  id : String
  fromAddress : Option String
  subject : Option String
  intro : Option String
  createdAt : String
  deriving DecidableEq, Repr

/-- The outcome of `fetchJson`: it throws (the request failed, the status is not a success, or
the body is not valid JSON), it returns `null` (the content type is not JSON), or it returns the
parsed body. -/
inductive Fetched (α : Type)
  | failed (message : String)
  | nonJson
  | json (value : α)
  deriving DecidableEq, Repr

/-- An entry of the domain listing. -/
structure DomainEntry where
  domain : Option String
  deriving DecidableEq, Repr

/-- The body of `GET /domains?page=1`; `member` is its `hydra:member`. -/
structure DomainsPage where
  member : Option (List DomainEntry)
  deriving DecidableEq, Repr

/-- The body of `POST /token`, by its property `token` (`undefined` when absent). -/
structure TokenReply where
  token : JsVal
  deriving DecidableEq, Repr

/-- The body of `GET /me`. -/
structure MeReply where
  id : Option String
  deriving DecidableEq, Repr

/-- What `res.json()` gives for the message listing: it rejects, it is `null`, or it is an object
whose `hydra:member` is `member`. -/
inductive InboxBody
  | invalid (message : String)
  | null
  | listing (member : Option (List Message))
  deriving DecidableEq, Repr

/-- The outcome of `fetch(API + '/messages', ...)`: the promise rejects, or a response comes
back with a status and a body. -/
inductive InboxResponse
  | networkError (message : String)
  | http (status : Nat) (body : InboxBody)
  deriving DecidableEq, Repr

/-- A request sent to the provider. A `token` is the text that follows `Bearer ` in the
`Authorization` header. -/
inductive Request
  | getDomains
  | postAccounts (address password : String)
  | postToken (address password : String)
  | getMe (token : String)
  | deleteAccount (id token : String)
  | getMessages (token : String)
  deriving DecidableEq, Repr

/-- Something the script does that is seen outside it. -/
inductive Effect
  | request (r : Request)
  | confirm
  | alert (message : String)
  | showNewTag
  | clipboardWrite (text : String)
  deriving DecidableEq, Repr

/-- One rendered entry of the inbox list. -/
structure MsgNode where
  messageId : String
  fromHtml : String
  time : String
  subjectHtml : String
  previewHtml : String
  deriving DecidableEq, Repr

/-- The content of `inboxList`. -/
inductive InboxView
  | placeholder
  | loading
  | error (escapedMessage : String)
  | noMessages
  | messages (nodes : List MsgNode)
  deriving DecidableEq, Repr

/-- The page elements the script writes to. -/
structure UI where
  emailBox : String
  acctInfo : String
  inboxList : InboxView
  btnCopyDisabled : Bool
  btnDeleteDisabled : Bool
  btnRefreshDisabled : Bool
  btnGenerateDisabled : Bool
  btnGenerateText : String
  btnDeleteText : String
  deriving DecidableEq, Repr

/-- The state of the page. `timers` are the handles of the interval timers that are live, and
`timerSeq` counts the timers created so far. -/
structure State where
  pollTimer : Option Nat
  lastMessageIds : JsSet
  currentAccount : Option Account
  localStorage : Option JsonText
  timers : List Nat
  timerSeq : Nat
  ui : UI
  trace : List Effect
  deriving DecidableEq, Repr

/-- The state when the script starts: the three variables as declared, no timer, nothing done. -/
def initialState (ui : UI) (stored : Option JsonText) : State :=
  { pollTimer := none
    lastMessageIds := JsSet.empty
    currentAccount := none
    localStorage := stored
    timers := []
    timerSeq := 0
    ui := ui
    trace := [] }

/-- Record an effect. -/
def State.emit (s : State) (e : Effect) : State :=
  { s with trace := s.trace ++ [e] }

/-- The effects recorded between `s` and a later state `s'`. -/
def effectsSince (s s' : State) : List Effect :=
  s'.trace.drop s.trace.length

/-- The requests among some effects. -/
def requestsOf (es : List Effect) : List Request :=
  es.filterMap fun e => match e with
    | Effect.request r => some r
    | _ => none

/-! ## Helper functions -/

/-- Truthiness of a string. -/
def truthy (x : String) : Bool := x != ""

/-- The alphabet of `rand`. -/
def randAlphabet : List Char := "abcdefghijklmnopqrstuvwxyz0123456789".toList

/-- The function `rand(len)`: the `i`-th draw is `Math.floor(Math.random() * s.length)`. -/
def rand (len : Nat) (draws : List (Fin 36)) : String :=
  String.mk ((List.range len).map fun i => randAlphabet.getD (draws.getD i 0).val 'a')

/-- One call of `replace` with a global pattern of a single character. -/
def replaceAll (c : Char) (sub : List Char) : List Char → List Char
  | [] => []
  | x :: xs => (if x = c then sub else [x]) ++ replaceAll c sub xs

/-- The function `escapeHtml`; `none` is `null` or `undefined`. -/
def escapeHtml (input : Option String) : String :=
  match input with
  | none => ""
  | some u =>
    String.mk
      (replaceAll (Char.ofNat 39) "&#039;".toList
        (replaceAll '"' "&quot;".toList
          (replaceAll '>' "&gt;".toList
            (replaceAll '<' "&lt;".toList
              (replaceAll '&' "&amp;".toList u.toList)))))

/-- The substitution of one character that the specification describes. -/
def escapeChar (c : Char) : List Char :=
  if c = '&' then "&amp;".toList
  else if c = '<' then "&lt;".toList
  else if c = '>' then "&gt;".toList
  else if c = '"' then "&quot;".toList
  else if c = Char.ofNat 39 then "&#039;".toList
  else [c]

/-- The specification of `escapeHtml`: every character is substituted on its own and the results
are concatenated. -/
def escapeHtmlSpec (u : String) : String :=
  String.mk (u.toList.flatMap escapeChar)

/-- The tails of the five entities, after their `&`. -/
def entityTails : List (List Char) :=
  ["amp;".toList, "lt;".toList, "gt;".toList, "quot;".toList, "#039;".toList]

/-! ## Polling timer -/

/-- The function `stopAutoPoll`. A handle is truthy when it is not zero. -/
def stopAutoPoll (s : State) : State :=
  match s.pollTimer with
  | some h =>
    if h ≠ 0 then { s with timers := s.timers.filter (fun t => t != h), pollTimer := none }
    else s
  | none => s

/-- The call `setInterval(...)`: a new live timer whose handle is a positive integer that no
earlier timer had. -/
def setInterval (s : State) : State × Nat :=
  ({ s with timers := (s.timerSeq + 1) :: s.timers, timerSeq := s.timerSeq + 1 }, s.timerSeq + 1)

/-- The function `startAutoPoll`. -/
def startAutoPoll (s : State) : State :=
  let s1 := stopAutoPoll s
  match s1.currentAccount with
  | some _ =>
    let (s2, h) := setInterval s1
    { s2 with pollTimer := some h }
  | none => s1

/-! ## Inbox views -/

/-- The function `showInboxLoading`. -/
def showInboxLoading (s : State) : State :=
  { s with ui := { s.ui with inboxList := InboxView.loading } }

/-- The function `showInboxError`. -/
def showInboxError (message : String) (s : State) : State :=
  { s with ui := { s.ui with inboxList := InboxView.error (escapeHtml (some message)) } }

/-- The function `showInboxEmpty`. -/
def showInboxEmpty (s : State) : State :=
  { s with ui := { s.ui with inboxList := InboxView.noMessages } }

/-! ## Inbox polling -/

/-- The first part of `loadInbox(silent)`, up to the request for the listing. -/
def loadInboxStart (silent : Bool) (s : State) : State :=
  match s.currentAccount with
  | none => showInboxError "No account. Generate first." s
  | some acc =>
    let s1 := if !silent then showInboxLoading s else s
    s1.emit (Effect.request (Request.getMessages (jsToString acc.token)))

/-- The loop `for (const id of incomingIds)` with its `break`, over the elements still to
visit. -/
def scanNew (last : JsSet) : List String → Bool
  | [] => false
  | id :: rest => if !last.has id then true else scanNew last rest

/-- The value of `isNew` for the tracked set `last` and the incoming set. -/
def isNew (last incoming : JsSet) : Bool :=
  if last.size > 0 then scanNew last incoming.items else false

/-- The value of `x || fallback` for an optional string. -/
def orElse (x : Option String) (fallback : String) : String :=
  match x with
  | some v => if truthy v then v else fallback
  | none => fallback

/-- The entry of the inbox list rendered for a message. The time shown is the locale form of
`createdAt`; the model keeps `createdAt` itself. -/
def renderMessage (m : Message) : MsgNode :=
  { messageId := m.id
    fromHtml := escapeHtml (some (orElse m.fromAddress "(unknown)"))
    time := m.createdAt
    subjectHtml := escapeHtml (some (orElse m.subject "(no subject)"))
    previewHtml := escapeHtml (some (orElse m.intro "")) }

/-- The part of `loadInbox` that handles a listing `msgs`. -/
def processListing (msgs : List Message) (s : State) : State :=
  let incomingIds := JsSet.ofList (msgs.map fun m => m.id)
  let flag := isNew s.lastMessageIds incomingIds
  let s1 := { s with lastMessageIds := incomingIds }
  let s2 := if flag then s1.emit Effect.showNewTag else s1
  if msgs.length = 0 then showInboxEmpty s2
  else { s2 with ui := { s2.ui with inboxList := InboxView.messages (msgs.map renderMessage) } }

/-! ## Account life cycle -/

/-- The function `updateUIAccount`. The call of `loadInbox` it makes is not waited for: only its
first part runs here. -/
def updateUIAccount (acc : Option Account) (s : State) : State :=
  let s1 := { s with currentAccount := acc }
  match acc with
  | some a =>
    let s2 := { s1 with ui := { s1.ui with
      emailBox := textContent a.address
      acctInfo := "Status: Monitoring inbox... (Password saved locally)"
      btnCopyDisabled := false
      btnDeleteDisabled := false
      btnRefreshDisabled := false } }
    loadInboxStart false (startAutoPoll s2)
  | none =>
    let s2 := { s1 with ui := { s1.ui with
      emailBox := "[Click 'GENERATE' to start]"
      acctInfo := "Status: Idle"
      inboxList := InboxView.placeholder
      btnCopyDisabled := true
      btnDeleteDisabled := true
      btnRefreshDisabled := true } }
    { stopAutoPoll s2 with lastMessageIds := JsSet.empty }

/-- The function `deleteRemote`. `meAns` is the outcome of `fetchJson(API + '/me')`; the outcome
of the `DELETE` request is not looked at. -/
def deleteRemote (acc : Option Account) (meAns : Fetched MeReply) (s : State) : State :=
  match acc with
  | none => s
  | some a =>
    if !a.token.isTruthy then s
    else
      let s1 := s.emit (Effect.request (Request.getMe (jsToString a.token)))
      match meAns with
      | Fetched.json me =>
        match me.id with
        | some id =>
          if truthy id then
            s1.emit (Effect.request (Request.deleteAccount id (jsToString a.token)))
          else s1
        | none => s1
      | _ => s1

/-- The function `handleDelete(confirmDelete)`. `confirmAns` is what the user answers to the
dialog, when it is shown. -/
def handleDelete (confirmDelete : Bool) (confirmAns : Bool) (meAns : Fetched MeReply)
    (s : State) : State :=
  match s.currentAccount with
  | none => s
  | some acc =>
    let s1 := if confirmDelete then s.emit Effect.confirm else s
    if confirmDelete && !confirmAns then s1
    else
      let s2 := { s1 with ui := { s1.ui with btnDeleteDisabled := true, btnDeleteText := "DELETING..." } }
      let s3 := deleteRemote (some acc) meAns s2
      let s4 := { s3 with localStorage := none }
      let s5 := updateUIAccount none s4
      { s5 with ui := { s5.ui with btnDeleteText := "DELETE" } }

/-- Whether a status is a success (`res.ok`). -/
def statusOk (status : Nat) : Bool := decide (200 ≤ status ∧ status ≤ 299)

/-- The message of the error raised when a property of `null` is read. -/
def nullAccess : String := "Cannot read properties of null"

/-- The second part of `loadInbox`, from the response of the listing request on. On status 401
it calls `handleDelete(false)`, whose request to the provider gets the answer `meAns`. -/
def loadInboxFinish (resp : InboxResponse) (meAns : Fetched MeReply) (s : State) : State :=
  match resp with
  | InboxResponse.networkError message => showInboxError ("Error loading inbox: " ++ message) s
  | InboxResponse.http status body =>
    if status = 401 then
      handleDelete false false meAns
        (showInboxError "Session expired. Please generate a new email." s)
    else if !statusOk status then showInboxError "Failed to fetch messages." s
    else
      match body with
      | InboxBody.invalid message => showInboxError ("Error loading inbox: " ++ message) s
      | InboxBody.null => showInboxError ("Error loading inbox: " ++ nullAccess) s
      | InboxBody.listing member => processListing (member.getD []) s

/-- The function `loadInbox(silent)` run as a whole. -/
def loadInbox (silent : Bool) (resp : InboxResponse) (meAns : Fetched MeReply) (s : State) :
    State :=
  match s.currentAccount with
  | none => loadInboxStart silent s
  | some _ => loadInboxFinish resp meAns (loadInboxStart silent s)

/-! ## Provisioning -/

/-- The function `getDomains`. -/
def getDomains (ans : Fetched DomainsPage) (s : State) : State × Except String (List DomainEntry) :=
  let s1 := s.emit (Effect.request Request.getDomains)
  match ans with
  | Fetched.failed message => (s1, Except.error message)
  | Fetched.nonJson => (s1, Except.error nullAccess)
  | Fetched.json d => (s1, Except.ok (d.member.getD []))

/-- The text a template literal gives for the `domain` field. -/
def domainText : Option String → String
  | some d => d
  | none => "undefined"

/-- The function `createAccount`. `draws` are the random draws of the two calls of `rand`;
`createAns` and `tokenAns` are the outcomes of the two `POST` requests. -/
def createAccount (draws : List (Fin 36)) (domainsAns : Fetched DomainsPage)
    (createAns : Fetched Unit) (tokenAns : Fetched TokenReply) (s : State) :
    State × Except String Account :=
  match getDomains domainsAns s with
  | (s1, Except.error e) => (s1, Except.error e)
  | (s1, Except.ok domains) =>
    match domains with
    | [] => (s1, Except.error "No mail domains available")
    | first :: _ =>
      let domain := domainText first.domain
      let localPart := "user" ++ rand 6 draws
      let addr := localPart ++ "@" ++ domain
      let pwd := "pass" ++ rand 12 (draws.drop 6)
      let s2 := s1.emit (Effect.request (Request.postAccounts addr pwd))
      match createAns with
      | Fetched.failed message => (s2, Except.error message)
      | _ =>
        let s3 := s2.emit (Effect.request (Request.postToken addr pwd))
        match tokenAns with
        | Fetched.failed message => (s3, Except.error message)
        | Fetched.nonJson => (s3, Except.error nullAccess)
        | Fetched.json tokenRes =>
          if !tokenRes.token.isTruthy then
            (s3, Except.error "Failed to get auth token after account creation.")
          else
            let acc : Account :=
              { address := JsVal.string addr, password := JsVal.string pwd,
                token := tokenRes.token }
            ({ s3 with localStorage := some (jsonStringify acc.toJs) }, Except.ok acc)

/-- The function `loadStored`. When the key is absent `getItem` gives `null`, which `JSON.parse`
reads as `null`; when `JSON.parse` throws, the error is caught. -/
def loadStored (s : State) : Option Account :=
  match s.localStorage with
  | none => none
  | some text =>
    match jsonParse text with
    | none => none
    | some acc =>
      if acc.isTruthy && (acc.property "address").isTruthy && (acc.property "token").isTruthy
      then some (Account.ofJs acc)
      else none

/-- The function `generate`. -/
def generate (draws : List (Fin 36)) (meAns : Fetched MeReply) (domainsAns : Fetched DomainsPage)
    (createAns : Fetched Unit) (tokenAns : Fetched TokenReply) (s : State) : State :=
  let s1 := { s with ui := { s.ui with
    btnGenerateDisabled := true
    btnGenerateText := "CREATING..."
    acctInfo := "Status: Requesting new email..." } }
  let s2 := match s1.currentAccount with
    | some acc => deleteRemote (some acc) meAns s1
    | none => s1
  let s3 := match createAccount draws domainsAns createAns tokenAns s2 with
    | (t, Except.ok acc) => updateUIAccount (some acc) { t with lastMessageIds := JsSet.empty }
    | (t, Except.error message) =>
      let t1 := t.emit (Effect.alert ("Failed to create account: " ++ message))
      { t1 with ui := { t1.ui with acctInfo := "Status: Error!" } }
  { s3 with ui := { s3.ui with btnGenerateDisabled := false, btnGenerateText := "GENERATE NEW" } }

/-- The function `copyToClipboard`; `written` tells whether the clipboard accepted the text. -/
def copyToClipboard (written : Bool) (message : String) (s : State) : State :=
  match s.currentAccount with
  | none => s
  | some acc =>
    if !acc.address.isTruthy then s
    else
      let s1 := s.emit (Effect.clipboardWrite (jsToString acc.address))
      if written then { s1 with ui := { s1.ui with acctInfo := "Status: Copied to clipboard!" } }
      else s1.emit (Effect.alert ("Failed to copy: " ++ message))

/-- The callback `() => updateUIAccount(currentAccount)` that `copyToClipboard` schedules. -/
def copyReset (s : State) : State := updateUIAccount s.currentAccount s

/-- The function `init`, without the wiring of the buttons. -/
def init (s : State) : State := updateUIAccount (loadStored s) s

/-! ## Runs of the page -/

/-- What can happen on the page after the script has started. -/
inductive Event
  | init
  | updateUIAccount (acc : Option Account)
  | generate (draws : List (Fin 36)) (meAns : Fetched MeReply) (domainsAns : Fetched DomainsPage)
      (createAns : Fetched Unit) (tokenAns : Fetched TokenReply)
  | handleDelete (confirmDelete confirmAns : Bool) (meAns : Fetched MeReply)
  | copyToClipboard (written : Bool) (message : String)
  | copyReset
  | loadInboxStart (silent : Bool)
  | loadInboxFinish (resp : InboxResponse) (meAns : Fetched MeReply)
  | startAutoPoll
  deriving DecidableEq, Repr

/-- The effect of an event on the state. -/
def step (s : State) : Event → State
  | Event.init => init s
  | Event.updateUIAccount acc => updateUIAccount acc s
  | Event.generate draws meAns domainsAns createAns tokenAns =>
    generate draws meAns domainsAns createAns tokenAns s
  | Event.handleDelete confirmDelete confirmAns meAns =>
    handleDelete confirmDelete confirmAns meAns s
  | Event.copyToClipboard written message => copyToClipboard written message s
  | Event.copyReset => copyReset s
  | Event.loadInboxStart silent => loadInboxStart silent s
  | Event.loadInboxFinish resp meAns => loadInboxFinish resp meAns s
  | Event.startAutoPoll => startAutoPoll s

/-- The state after a sequence of events. -/
def run (s : State) (events : List Event) : State := events.foldl step s

/-- A state the page can be in: the initial state followed by some events. -/
def Reachable (s : State) : Prop :=
  ∃ ui stored events, s = run (initialState ui stored) events

/-- The timer invariant: either no timer is live, `pollTimer` is `null` and there is no account,
or exactly one timer is live, `pollTimer` is its handle and there is an account. -/
def TimerInv (s : State) : Prop :=
  (s.timers = [] ∧ s.pollTimer = none ∧ s.currentAccount = none) ∨
  (∃ h, h ≠ 0 ∧ s.timers = [h] ∧ s.pollTimer = some h ∧ s.currentAccount ≠ none)

/-- The part of the timer invariant that does not mention the account: `pollTimer` is the handle
of the one live timer, or there is none. -/
def TimerOk (s : State) : Prop :=
  (s.timers = [] ∧ s.pollTimer = none) ∨ (∃ k, k ≠ 0 ∧ s.timers = [k] ∧ s.pollTimer = some k)

/-! ## Sample data -/

/-- A page as the script may find it. -/
def sampleUI : UI :=
  { emailBox := ""
    acctInfo := ""
    inboxList := InboxView.placeholder
    btnCopyDisabled := true
    btnDeleteDisabled := true
    btnRefreshDisabled := true
    btnGenerateDisabled := false
    btnGenerateText := "GENERATE"
    btnDeleteText := "DELETE" }

/-- A credential record. -/
def sampleAccount : Account :=
  { address := JsVal.string "userab12cd@example.org"
    password := JsVal.string "passabcdef012345"
    token := JsVal.string "tok1" }

/-- The record `createAccount` builds from the domain `example.org`, the token `tok2` and draws
that are all zero. -/
def sampleCreated : Account :=
  { address := JsVal.string "useraaaaaa@example.org"
    password := JsVal.string "passaaaaaaaaaaaa"
    token := JsVal.string "tok2" }

/-- The record `createAccount` builds from the domain `example.org`, the token `Infinity` (the
value of the literal `1e999`) and draws that are all zero. -/
def sampleOverflow : Account :=
  { address := JsVal.string "useraaaaaa@example.org"
    password := JsVal.string "passaaaaaaaaaaaa"
    token := JsVal.number JsNumber.infinity }

/-- A message with identifier `a`. -/
def messageA : Message :=
  { id := "a", fromAddress := some "x@y.z", subject := some "Hi", intro := none,
    createdAt := "2024-01-01T00:00:00+00:00" }

/-- A message with identifier `b`. -/
def messageB : Message :=
  { id := "b", fromAddress := none, subject := none, intro := some "<b>", createdAt := "" }

/-- A successful answer to the listing request that lists `msgs`. -/
def okListing (msgs : List Message) : InboxResponse :=
  InboxResponse.http 200 (InboxBody.listing (some msgs))

/-- The page after `init` found `sampleAccount` in the store: an account, one timer, an empty
tracked set. -/
def sampleActive : State :=
  run (initialState sampleUI (some (jsonStringify sampleAccount.toJs))) [Event.init]

/-- The page of `sampleActive` after a poll that listed `messageA`. -/
def sampleSeen : State :=
  run sampleActive [Event.loadInboxFinish (okListing [messageA]) Fetched.nonJson]

/-- The page of `sampleSeen` after a silent poll was started for `sampleAccount` and, before its
answer came, `generate` replaced the account by `sampleCreated`. -/
def sampleReplaced : State :=
  run sampleSeen
    [Event.loadInboxStart true,
      Event.generate [] (Fetched.json ⟨some "id1"⟩) (Fetched.json ⟨some [⟨some "example.org"⟩]⟩)
        (Fetched.json ()) (Fetched.json ⟨JsVal.string "tok2"⟩)]

/-- The page of `sampleReplaced` after the answer to the poll started for `sampleAccount`, which
lists `messageA`, has come. -/
def sampleStale : State :=
  loadInboxFinish (okListing [messageA]) Fetched.nonJson sampleReplaced

/-! ## Facts about the identifier set -/

theorem JsSet.mem_add (s : JsSet) (x y : String) :
    y ∈ (s.add x).items ↔ y ∈ s.items ∨ y = x := by
  unfold JsSet.add JsSet.has
  by_cases h : x ∈ s.items
  · simp only [h, decide_True, if_true]
    constructor
    · exact Or.inl
    · rintro (hy | rfl)
      · exact hy
      · exact h
  · simp [h]

theorem JsSet.nodup_add (s : JsSet) (x : String) (hs : s.items.Nodup) :
    (s.add x).items.Nodup := by
  unfold JsSet.add JsSet.has
  by_cases h : x ∈ s.items
  · simpa [h] using hs
  · simp only [h, decide_False, Bool.false_eq_true, if_false]
    rw [List.nodup_append]
    refine ⟨hs, List.nodup_singleton x, ?_⟩
    intro a ha hb
    rw [List.mem_singleton] at hb
    exact h (hb ▸ ha)

theorem JsSet.mem_foldl_add (xs : List String) (s : JsSet) (y : String) :
    y ∈ (xs.foldl JsSet.add s).items ↔ y ∈ s.items ∨ y ∈ xs := by
  induction xs generalizing s with
  | nil => simp
  | cons x rest ih =>
    rw [List.foldl_cons, ih, JsSet.mem_add, List.mem_cons]
    constructor
    · rintro ((h | h) | h)
      · exact Or.inl h
      · exact Or.inr (Or.inl h)
      · exact Or.inr (Or.inr h)
    · rintro (h | h | h)
      · exact Or.inl (Or.inl h)
      · exact Or.inl (Or.inr h)
      · exact Or.inr h

theorem JsSet.nodup_foldl_add (xs : List String) (s : JsSet) (hs : s.items.Nodup) :
    (xs.foldl JsSet.add s).items.Nodup := by
  induction xs generalizing s with
  | nil => simpa using hs
  | cons x rest ih =>
    rw [List.foldl_cons]
    exact ih _ (JsSet.nodup_add s x hs)

theorem JsSet.mem_ofList (xs : List String) (y : String) :
    y ∈ (JsSet.ofList xs).items ↔ y ∈ xs := by
  unfold JsSet.ofList
  rw [JsSet.mem_foldl_add]
  simp [JsSet.empty]

theorem JsSet.nodup_ofList (xs : List String) : (JsSet.ofList xs).items.Nodup := by
  unfold JsSet.ofList
  exact JsSet.nodup_foldl_add xs _ (by simp [JsSet.empty])

theorem JsSet.has_ofList (xs : List String) (y : String) :
    (JsSet.ofList xs).has y = true ↔ y ∈ xs := by
  unfold JsSet.has
  rw [decide_eq_true_iff, JsSet.mem_ofList]

theorem scanNew_eq_true_iff (last : JsSet) (xs : List String) :
    scanNew last xs = true ↔ ∃ id ∈ xs, last.has id = false := by
  induction xs with
  | nil => simp [scanNew]
  | cons x rest ih =>
    unfold scanNew
    by_cases h : last.has x = true
    · simp [h, ih]
    · have h' : last.has x = false := by simpa using h
      simp [h']

theorem isNew_eq_true_iff (last incoming : JsSet) :
    isNew last incoming = true ↔
      0 < last.size ∧ ∃ id ∈ incoming.items, last.has id = false := by
  unfold isNew
  by_cases h : last.size > 0
  · rw [if_pos h, scanNew_eq_true_iff]
    exact ⟨fun hx => ⟨h, hx⟩, fun hx => hx.2⟩
  · rw [if_neg h]
    exact ⟨fun hx => absurd hx (by simp), fun hx => absurd hx.1 h⟩

theorem isNew_ofList_iff (last : JsSet) (msgs : List Message) :
    isNew last (JsSet.ofList (msgs.map fun m => m.id)) = true ↔
      0 < last.size ∧ ∃ m ∈ msgs, last.has m.id = false := by
  rw [isNew_eq_true_iff]
  constructor
  · rintro ⟨h, id, hid, hn⟩
    rw [JsSet.mem_ofList, List.mem_map] at hid
    obtain ⟨m, hm, rfl⟩ := hid
    exact ⟨h, m, hm, hn⟩
  · rintro ⟨h, m, hm, hn⟩
    refine ⟨h, m.id, ?_, hn⟩
    rw [JsSet.mem_ofList, List.mem_map]
    exact ⟨m, hm, rfl⟩

/-! ## Facts about a successful poll -/

theorem effectsSince_append (s s' : State) (es : List Effect) (h : s'.trace = s.trace ++ es) :
    effectsSince s s' = es := by
  unfold effectsSince
  rw [h, List.drop_left]

theorem processListing_lastMessageIds (msgs : List Message) (s : State) :
    (processListing msgs s).lastMessageIds = JsSet.ofList (msgs.map fun m => m.id) := by
  unfold processListing showInboxEmpty State.emit
  dsimp only
  split <;> split <;> rfl

theorem processListing_trace (msgs : List Message) (s : State) :
    (processListing msgs s).trace = s.trace ++
      (if isNew s.lastMessageIds (JsSet.ofList (msgs.map fun m => m.id)) = true
        then [Effect.showNewTag] else []) := by
  unfold processListing showInboxEmpty State.emit
  dsimp only
  split <;> split <;> simp_all

theorem showNewTag_processListing_iff (msgs : List Message) (s : State) :
    Effect.showNewTag ∈ effectsSince s (processListing msgs s) ↔
      isNew s.lastMessageIds (JsSet.ofList (msgs.map fun m => m.id)) = true := by
  rw [effectsSince_append s _ _ (processListing_trace msgs s)]
  split <;> simp_all

theorem loadInboxFinish_listing (status : Nat) (member : Option (List Message))
    (meAns : Fetched MeReply) (s : State) (hok : statusOk status = true) :
    loadInboxFinish (InboxResponse.http status (InboxBody.listing member)) meAns s =
      processListing (member.getD []) s := by
  have h : 200 ≤ status ∧ status ≤ 299 := by simpa [statusOk] using hok
  have h401 : status ≠ 401 := by omega
  simp [loadInboxFinish, h401, hok]

/-! ## Detection of new mail (C1, C2, C9) -/

/-- C1, as the claim states it, fails: on the page `sampleActive`, whose tracked set is empty, a
successful poll listing `messageA` contains an identifier that is not tracked, and the new-mail
flag is not raised. -/
theorem newTag_iff_unseen_fails_without_baseline :
    (∃ m ∈ [messageA], sampleActive.lastMessageIds.has m.id = false) ∧
      Effect.showNewTag ∉
        effectsSince sampleActive
          (loadInboxFinish (okListing [messageA]) Fetched.nonJson sampleActive) := by
  decide

/-- C1 (amended): for every state whose tracked set is not empty and every listing of a
successful poll, the new-mail flag is raised if and only if the listing contains a message
whose identifier is not tracked; when the tracked set is empty the flag is not raised. -/
theorem newTag_iff_unseen_of_baseline (s : State) (status : Nat)
    (member : Option (List Message)) (meAns : Fetched MeReply) (hok : statusOk status = true) :
    (0 < s.lastMessageIds.size →
      (Effect.showNewTag ∈ effectsSince s
          (loadInboxFinish (InboxResponse.http status (InboxBody.listing member)) meAns s) ↔
        ∃ m ∈ member.getD [], s.lastMessageIds.has m.id = false)) ∧
    (s.lastMessageIds.size = 0 →
      Effect.showNewTag ∉ effectsSince s
          (loadInboxFinish (InboxResponse.http status (InboxBody.listing member)) meAns s)) := by
  rw [loadInboxFinish_listing status member meAns s hok, showNewTag_processListing_iff,
    isNew_ofList_iff]
  constructor
  · intro hpos
    exact ⟨fun h => h.2, fun h => ⟨hpos, h⟩⟩
  · intro hzero h
    omega

/-- Witness of C1 (amended): on `sampleSeen`, which tracks `a`, a poll listing `a` and `b`
raises the flag. -/
theorem newTag_iff_unseen_of_baseline_witness :
    statusOk 200 = true ∧ 0 < sampleSeen.lastMessageIds.size ∧
      Effect.showNewTag ∈ effectsSince sampleSeen
        (loadInboxFinish (InboxResponse.http 200 (InboxBody.listing (some [messageA, messageB])))
          Fetched.nonJson sampleSeen) :=
  ⟨by decide, by decide,
    ((newTag_iff_unseen_of_baseline sampleSeen 200 (some [messageA, messageB]) Fetched.nonJson
      (by decide)).1 (by decide)).2 ⟨messageB, by decide, by decide⟩⟩

/-- C2: after a successful poll the tracked set is the set built from the identifiers of the
listing, whatever the state before: two polls of the same listing from any two states leave the
same tracked set, an identifier is tracked if and only if a listed message has it, and no
identifier is tracked twice. -/
theorem lastMessageIds_replaced (s t : State) (status : Nat) (member : Option (List Message))
    (meAns meAns' : Fetched MeReply) (hok : statusOk status = true) :
    (loadInboxFinish (InboxResponse.http status (InboxBody.listing member)) meAns s).lastMessageIds
        = JsSet.ofList ((member.getD []).map fun m => m.id) ∧
    (loadInboxFinish (InboxResponse.http status (InboxBody.listing member)) meAns s).lastMessageIds
        = (loadInboxFinish (InboxResponse.http status (InboxBody.listing member)) meAns'
            t).lastMessageIds ∧
    (∀ x, (loadInboxFinish (InboxResponse.http status (InboxBody.listing member)) meAns
        s).lastMessageIds.has x = true ↔ ∃ m ∈ member.getD [], m.id = x) ∧
    (loadInboxFinish (InboxResponse.http status (InboxBody.listing member)) meAns
        s).lastMessageIds.items.Nodup := by
  rw [loadInboxFinish_listing status member meAns s hok,
    loadInboxFinish_listing status member meAns' t hok, processListing_lastMessageIds,
    processListing_lastMessageIds]
  refine ⟨rfl, rfl, ?_, JsSet.nodup_ofList _⟩
  intro x
  rw [JsSet.has_ofList, List.mem_map]

/-- Witness of C2: from `sampleSeen`, which tracks `a`, a poll listing `b` twice leaves exactly
`b` tracked. -/
theorem lastMessageIds_replaced_witness :
    statusOk 200 = true ∧
      (loadInboxFinish (InboxResponse.http 200 (InboxBody.listing (some [messageB, messageB])))
        Fetched.nonJson sampleSeen).lastMessageIds = JsSet.mk ["b"] :=
  ⟨by decide,
    (lastMessageIds_replaced sampleSeen sampleActive 200 (some [messageB, messageB])
      Fetched.nonJson Fetched.nonJson (by decide)).1.trans (by decide)⟩

/-- C9: for every state and every listing of a successful poll, the new-mail flag is raised if
and only if the tracked set is not empty and some listed identifier is not tracked. Hence it is
not raised when the tracked set is empty, nor when every listed identifier is tracked, and a
second poll with the same listing does not raise it and leaves the tracked set as it is. -/
theorem newTag_only_against_baseline (s : State) (status : Nat)
    (member : Option (List Message)) (meAns : Fetched MeReply) (hok : statusOk status = true) :
    (Effect.showNewTag ∈ effectsSince s
        (loadInboxFinish (InboxResponse.http status (InboxBody.listing member)) meAns s) ↔
      0 < s.lastMessageIds.size ∧ ∃ m ∈ member.getD [], s.lastMessageIds.has m.id = false) ∧
    (s.lastMessageIds.size = 0 →
      Effect.showNewTag ∉ effectsSince s
        (loadInboxFinish (InboxResponse.http status (InboxBody.listing member)) meAns s)) ∧
    ((∀ m ∈ member.getD [], s.lastMessageIds.has m.id = true) →
      Effect.showNewTag ∉ effectsSince s
        (loadInboxFinish (InboxResponse.http status (InboxBody.listing member)) meAns s)) ∧
    (Effect.showNewTag ∉
        effectsSince
          (loadInboxFinish (InboxResponse.http status (InboxBody.listing member)) meAns s)
          (loadInboxFinish (InboxResponse.http status (InboxBody.listing member)) meAns
            (loadInboxFinish (InboxResponse.http status (InboxBody.listing member)) meAns s)) ∧
      (loadInboxFinish (InboxResponse.http status (InboxBody.listing member)) meAns
          (loadInboxFinish (InboxResponse.http status (InboxBody.listing member)) meAns
            s)).lastMessageIds =
        (loadInboxFinish (InboxResponse.http status (InboxBody.listing member)) meAns
          s).lastMessageIds) := by
  have e1 := loadInboxFinish_listing status member meAns s hok
  have e2 := loadInboxFinish_listing status member meAns (processListing (member.getD []) s) hok
  rw [e1, e2, showNewTag_processListing_iff, showNewTag_processListing_iff, isNew_ofList_iff,
    isNew_ofList_iff, processListing_lastMessageIds, processListing_lastMessageIds]
  refine ⟨Iff.rfl, ?_, ?_, ?_, rfl⟩
  · rintro hzero ⟨hpos, -⟩
    omega
  · rintro hall ⟨-, m, hm, hn⟩
    rw [hall m hm] at hn
    exact absurd hn (by simp)
  · rintro ⟨-, m, hm, hn⟩
    have : (JsSet.ofList ((member.getD []).map fun m => m.id)).has m.id = true := by
      rw [JsSet.has_ofList, List.mem_map]
      exact ⟨m, hm, rfl⟩
    rw [this] at hn
    exact absurd hn (by simp)

/-- Witness of C9: on `sampleSeen`, which tracks `a`, a poll listing `a` and `b` raises the
flag, and `b` is the identifier that is not tracked. -/
theorem newTag_only_against_baseline_witness :
    statusOk 200 = true ∧
      (0 < sampleSeen.lastMessageIds.size ∧
        ∃ m ∈ [messageA, messageB], sampleSeen.lastMessageIds.has m.id = false) :=
  ⟨by decide,
    (newTag_only_against_baseline sampleSeen 200 (some [messageA, messageB]) Fetched.nonJson
      (by decide)).1.1 (by decide)⟩

/-! ## Escaping (C10) -/

theorem replaceAll_append (c : Char) (sub xs ys : List Char) :
    replaceAll c sub (xs ++ ys) = replaceAll c sub xs ++ replaceAll c sub ys := by
  induction xs with
  | nil => simp [replaceAll]
  | cons x rest ih => simp [replaceAll, ih]

/-- The five replacements of `escapeHtml`, in their order, on a list of characters. -/
theorem fivePasses_cons (x : Char) (xs : List Char) :
    replaceAll (Char.ofNat 39) "&#039;".toList
        (replaceAll '"' "&quot;".toList
          (replaceAll '>' "&gt;".toList
            (replaceAll '<' "&lt;".toList
              (replaceAll '&' "&amp;".toList (x :: xs))))) =
      escapeChar x ++
        replaceAll (Char.ofNat 39) "&#039;".toList
          (replaceAll '"' "&quot;".toList
            (replaceAll '>' "&gt;".toList
              (replaceAll '<' "&lt;".toList
                (replaceAll '&' "&amp;".toList xs)))) := by
  have hcons : x :: xs = [x] ++ xs := rfl
  rw [hcons]
  simp only [replaceAll_append]
  congr 1
  unfold escapeChar
  by_cases h1 : x = '&'
  · subst h1; decide
  by_cases h2 : x = '<'
  · subst h2; decide
  by_cases h3 : x = '>'
  · subst h3; decide
  by_cases h4 : x = '"'
  · subst h4; decide
  by_cases h5 : x = Char.ofNat 39
  · subst h5; decide
  simp [replaceAll, h1, h2, h3, h4, h5]

theorem fivePasses_eq_flatMap (xs : List Char) :
    replaceAll (Char.ofNat 39) "&#039;".toList
        (replaceAll '"' "&quot;".toList
          (replaceAll '>' "&gt;".toList
            (replaceAll '<' "&lt;".toList
              (replaceAll '&' "&amp;".toList xs)))) = xs.flatMap escapeChar := by
  induction xs with
  | nil => rfl
  | cons x rest ih => rw [fivePasses_cons, ih, List.flatMap_cons]

theorem escapeChar_clean (x c : Char) (hc : c ∈ escapeChar x) :
    c ≠ '<' ∧ c ≠ '>' ∧ c ≠ '"' ∧ c ≠ Char.ofNat 39 := by
  unfold escapeChar at hc
  split at hc
  · revert c; decide
  split at hc
  · revert c; decide
  split at hc
  · revert c; decide
  split at hc
  · revert c; decide
  split at hc
  · revert c; decide
  · rw [List.mem_singleton] at hc
    subst hc
    exact ⟨by assumption, by assumption, by assumption, by assumption⟩

theorem escapeChar_amp (x : Char) (pre post : List Char)
    (h : escapeChar x = pre ++ '&' :: post) : pre = [] ∧ post ∈ entityTails := by
  have key : ∀ (tail : List Char), '&' ∉ tail → tail ∈ entityTails →
      '&' :: tail = pre ++ '&' :: post → pre = [] ∧ post ∈ entityTails := by
    intro tail hnot hmem heq
    cases pre with
    | nil =>
      simp only [List.nil_append, List.cons.injEq, true_and] at heq
      exact ⟨rfl, heq ▸ hmem⟩
    | cons p ps =>
      simp only [List.cons_append, List.cons.injEq] at heq
      exact absurd (heq.2 ▸ (List.mem_append_right ps (List.mem_cons_self '&' post))) hnot
  unfold escapeChar at h
  split at h
  · exact key "amp;".toList (by decide) (by decide) h
  split at h
  · exact key "lt;".toList (by decide) (by decide) h
  split at h
  · exact key "gt;".toList (by decide) (by decide) h
  split at h
  · exact key "quot;".toList (by decide) (by decide) h
  split at h
  · exact key "#039;".toList (by decide) (by decide) h
  · rename_i hx _ _ _ _
    cases pre with
    | nil =>
      simp only [List.nil_append, List.cons.injEq] at h
      exact absurd h.1 hx
    | cons p ps =>
      simp only [List.cons_append, List.cons.injEq] at h
      exact absurd h.2 (by simp)

theorem flatMap_escapeChar_amp (xs : List Char) :
    ∀ pre post : List Char, xs.flatMap escapeChar = pre ++ '&' :: post →
      ∃ tail ∈ entityTails, tail <+: post := by
  induction xs with
  | nil =>
    intro pre post h
    simp at h
  | cons x rest ih =>
    intro pre post h
    rw [List.flatMap_cons, List.append_eq_append_iff] at h
    rcases h with ⟨a, hpre, hrest⟩ | ⟨c, hx, hpost⟩
    · exact ih a post hrest
    · cases c with
      | nil =>
        simp only [List.nil_append] at hpost
        exact ih [] post (by simpa using hpost.symm)
      | cons c0 cs =>
        simp only [List.cons_append, List.cons.injEq] at hpost
        obtain ⟨hc0, hcs⟩ := hpost
        subst hc0
        obtain ⟨-, hmem⟩ := escapeChar_amp x pre cs hx
        exact ⟨cs, hmem, hcs ▸ List.prefix_append cs _⟩

/-- C10: `escapeHtml` of a string is the concatenation of the substitutions of its characters;
its result contains none of the characters `<`, `>`, the double quote and the apostrophe, every
`&` in it is followed by the rest of one of the five entities, and `escapeHtml` of `null` or
`undefined` is the empty string. -/
theorem escapeHtml_eq_substitution :
    (∀ u : String, escapeHtml (some u) = escapeHtmlSpec u) ∧
    (∀ u : String, ∀ c ∈ (escapeHtml (some u)).toList,
      c ≠ '<' ∧ c ≠ '>' ∧ c ≠ '"' ∧ c ≠ Char.ofNat 39) ∧
    (∀ (u : String) (pre post : List Char),
      (escapeHtml (some u)).toList = pre ++ '&' :: post →
        ∃ tail ∈ entityTails, tail <+: post) ∧
    escapeHtml none = "" := by
  have heq : ∀ u : String, escapeHtml (some u) = escapeHtmlSpec u := by
    intro u
    simp only [escapeHtml, escapeHtmlSpec, fivePasses_eq_flatMap]
  refine ⟨heq, ?_, ?_, rfl⟩
  · intro u c hc
    rw [heq] at hc
    change c ∈ u.toList.flatMap escapeChar at hc
    rw [List.mem_flatMap] at hc
    obtain ⟨x, -, hx⟩ := hc
    exact escapeChar_clean x c hx
  · intro u pre post h
    rw [heq] at h
    change u.toList.flatMap escapeChar = pre ++ '&' :: post at h
    exact flatMap_escapeChar_amp u.toList pre post h

/-! ## What each function leaves alone -/

/-- The part of the timer invariant that does not mention the account. -/
theorem stopAutoPoll_clears (s : State)
    (h : (s.timers = [] ∧ s.pollTimer = none) ∨
      (∃ k, k ≠ 0 ∧ s.timers = [k] ∧ s.pollTimer = some k)) :
    (stopAutoPoll s).timers = [] ∧ (stopAutoPoll s).pollTimer = none := by
  unfold stopAutoPoll
  rcases h with ⟨ht, hp⟩ | ⟨k, hk, ht, hp⟩
  · rw [hp]
    exact ⟨ht, hp⟩
  · rw [hp]
    simp [hk, ht]

theorem stopAutoPoll_frame (s : State) :
    (stopAutoPoll s).currentAccount = s.currentAccount ∧
    (stopAutoPoll s).lastMessageIds = s.lastMessageIds ∧
    (stopAutoPoll s).localStorage = s.localStorage ∧
    (stopAutoPoll s).trace = s.trace := by
  unfold stopAutoPoll
  split
  · split <;> simp
  · simp

theorem startAutoPoll_frame (s : State) :
    (startAutoPoll s).currentAccount = s.currentAccount ∧
    (startAutoPoll s).lastMessageIds = s.lastMessageIds ∧
    (startAutoPoll s).localStorage = s.localStorage ∧
    (startAutoPoll s).trace = s.trace := by
  obtain ⟨h1, h2, h3, h4⟩ := stopAutoPoll_frame s
  unfold startAutoPoll setInterval
  dsimp only
  split <;> simp [h1, h2, h3, h4]

theorem startAutoPoll_timers (s : State)
    (h : (s.timers = [] ∧ s.pollTimer = none) ∨
      (∃ k, k ≠ 0 ∧ s.timers = [k] ∧ s.pollTimer = some k)) :
    (s.currentAccount = none →
      (startAutoPoll s).timers = [] ∧ (startAutoPoll s).pollTimer = none) ∧
    (s.currentAccount ≠ none →
      ∃ k, k ≠ 0 ∧ (startAutoPoll s).timers = [k] ∧ (startAutoPoll s).pollTimer = some k) := by
  obtain ⟨ht, hp⟩ := stopAutoPoll_clears s h
  obtain ⟨hc, -⟩ := stopAutoPoll_frame s
  unfold startAutoPoll setInterval
  dsimp only
  constructor
  · intro hnone
    rw [hc, hnone]
    exact ⟨ht, hp⟩
  · intro hsome
    cases hacc : s.currentAccount with
    | none => exact absurd hacc hsome
    | some a =>
      rw [hc, hacc]
      exact ⟨(stopAutoPoll s).timerSeq + 1, by omega, by simp [ht], rfl⟩

theorem loadInboxStart_frame (silent : Bool) (s : State) :
    (loadInboxStart silent s).currentAccount = s.currentAccount ∧
    (loadInboxStart silent s).lastMessageIds = s.lastMessageIds ∧
    (loadInboxStart silent s).localStorage = s.localStorage ∧
    (loadInboxStart silent s).timers = s.timers ∧
    (loadInboxStart silent s).pollTimer = s.pollTimer := by
  unfold loadInboxStart showInboxError showInboxLoading State.emit
  split
  · simp
  · cases silent <;> simp

theorem deleteRemote_frame (acc : Option Account) (meAns : Fetched MeReply) (s : State) :
    (deleteRemote acc meAns s).currentAccount = s.currentAccount ∧
    (deleteRemote acc meAns s).lastMessageIds = s.lastMessageIds ∧
    (deleteRemote acc meAns s).localStorage = s.localStorage ∧
    (deleteRemote acc meAns s).timers = s.timers ∧
    (deleteRemote acc meAns s).pollTimer = s.pollTimer ∧
    (deleteRemote acc meAns s).timerSeq = s.timerSeq := by
  unfold deleteRemote State.emit
  split
  · simp
  · split
    · simp
    · dsimp only
      split
      · split
        · split <;> simp
        · simp
      · simp

theorem deleteRemote_trace (acc : Option Account) (meAns : Fetched MeReply) (s : State) :
    ∃ es, (deleteRemote acc meAns s).trace = s.trace ++ es ∧
      ∀ e ∈ es, ∃ r, e = Effect.request r := by
  unfold deleteRemote State.emit
  split
  · exact ⟨[], by simp, by simp⟩
  · split
    · exact ⟨[], by simp, by simp⟩
    · dsimp only
      split
      · split
        · split
          · rename_i a _ _ _ _ v _ _
            exact ⟨[Effect.request (Request.getMe (jsToString a.token)),
              Effect.request (Request.deleteAccount v (jsToString a.token))], by simp, by simp⟩
          · exact ⟨[_], rfl, by simp⟩
        · exact ⟨[_], rfl, by simp⟩
      · exact ⟨[_], rfl, by simp⟩

theorem createAccount_frame (draws : List (Fin 36)) (domainsAns : Fetched DomainsPage)
    (createAns : Fetched Unit) (tokenAns : Fetched TokenReply) (s : State) :
    (createAccount draws domainsAns createAns tokenAns s).1.currentAccount = s.currentAccount ∧
    (createAccount draws domainsAns createAns tokenAns s).1.lastMessageIds = s.lastMessageIds ∧
    (createAccount draws domainsAns createAns tokenAns s).1.timers = s.timers ∧
    (createAccount draws domainsAns createAns tokenAns s).1.pollTimer = s.pollTimer := by
  unfold createAccount getDomains State.emit
  cases domainsAns with
  | failed m => simp
  | nonJson => simp
  | json d =>
    dsimp only
    cases d.member.getD [] with
    | nil => simp
    | cons first rest =>
      dsimp only
      cases createAns <;> cases tokenAns <;> try simp
      all_goals (split <;> simp)

theorem timerOk_of_timerInv {s : State} (h : TimerInv s) : TimerOk s := by
  rcases h with ⟨ht, hp, -⟩ | ⟨k, hk, ht, hp, -⟩
  · exact Or.inl ⟨ht, hp⟩
  · exact Or.inr ⟨k, hk, ht, hp⟩

theorem updateUIAccount_none (s : State) (h : TimerOk s) :
    (updateUIAccount none s).currentAccount = none ∧
    (updateUIAccount none s).timers = [] ∧
    (updateUIAccount none s).pollTimer = none ∧
    (updateUIAccount none s).lastMessageIds = JsSet.empty ∧
    (updateUIAccount none s).localStorage = s.localStorage ∧
    (updateUIAccount none s).trace = s.trace := by
  unfold updateUIAccount
  dsimp only
  have hc := stopAutoPoll_clears { s with currentAccount := none, ui := { s.ui with
      emailBox := "[Click 'GENERATE' to start]"
      acctInfo := "Status: Idle"
      inboxList := InboxView.placeholder
      btnCopyDisabled := true
      btnDeleteDisabled := true
      btnRefreshDisabled := true } } h
  have hf := stopAutoPoll_frame { s with currentAccount := none, ui := { s.ui with
      emailBox := "[Click 'GENERATE' to start]"
      acctInfo := "Status: Idle"
      inboxList := InboxView.placeholder
      btnCopyDisabled := true
      btnDeleteDisabled := true
      btnRefreshDisabled := true } }
  exact ⟨hf.1, hc.1, hc.2, rfl, hf.2.2.1, hf.2.2.2⟩

theorem updateUIAccount_some (a : Account) (s : State) (h : TimerOk s) :
    (updateUIAccount (some a) s).currentAccount = some a ∧
    (∃ k, k ≠ 0 ∧ (updateUIAccount (some a) s).timers = [k] ∧
      (updateUIAccount (some a) s).pollTimer = some k) ∧
    (updateUIAccount (some a) s).lastMessageIds = s.lastMessageIds ∧
    (updateUIAccount (some a) s).localStorage = s.localStorage := by
  unfold updateUIAccount
  dsimp only
  generalize hs2 : ({ s with currentAccount := some a, ui := { s.ui with
      emailBox := textContent a.address
      acctInfo := "Status: Monitoring inbox... (Password saved locally)"
      btnCopyDisabled := false
      btnDeleteDisabled := false
      btnRefreshDisabled := false } } : State) = s2
  have hok : TimerOk s2 := by subst hs2; exact h
  have hacc : s2.currentAccount = some a := by subst hs2; rfl
  have hl : s2.lastMessageIds = s.lastMessageIds := by subst hs2; rfl
  have hst : s2.localStorage = s.localStorage := by subst hs2; rfl
  obtain ⟨f1, f2, f3, f4, f5⟩ := loadInboxStart_frame false (startAutoPoll s2)
  obtain ⟨g1, g2, g3, -⟩ := startAutoPoll_frame s2
  obtain ⟨k, hk, ht, hp⟩ := (startAutoPoll_timers s2 hok).2 (by rw [hacc]; simp)
  refine ⟨by rw [f1, g1, hacc], ⟨k, hk, by rw [f4, ht], by rw [f5, hp]⟩, ?_, ?_⟩
  · rw [f2, g2, hl]
  · rw [f3, g3, hst]

theorem updateUIAccount_timerInv (acc : Option Account) (s : State) (h : TimerOk s) :
    TimerInv (updateUIAccount acc s) := by
  cases acc with
  | none =>
    obtain ⟨h1, h2, h3, -⟩ := updateUIAccount_none s h
    exact Or.inl ⟨h2, h3, h1⟩
  | some a =>
    obtain ⟨h1, ⟨k, hk, ht, hp⟩, -⟩ := updateUIAccount_some a s h
    exact Or.inr ⟨k, hk, ht, hp, by rw [h1]; simp⟩

theorem processListing_frame (msgs : List Message) (s : State) :
    (processListing msgs s).currentAccount = s.currentAccount ∧
    (processListing msgs s).localStorage = s.localStorage ∧
    (processListing msgs s).timers = s.timers ∧
    (processListing msgs s).pollTimer = s.pollTimer := by
  unfold processListing showInboxEmpty State.emit
  dsimp only
  split <;> split <;> simp

theorem showInboxError_frame (message : String) (s : State) :
    (showInboxError message s).currentAccount = s.currentAccount ∧
    (showInboxError message s).lastMessageIds = s.lastMessageIds ∧
    (showInboxError message s).localStorage = s.localStorage ∧
    (showInboxError message s).timers = s.timers ∧
    (showInboxError message s).pollTimer = s.pollTimer ∧
    (showInboxError message s).trace = s.trace := by
  unfold showInboxError
  simp

/-- A state that differs from `s` only in fields the timer invariant does not read. -/
theorem timerInv_congr {s t : State} (h : TimerInv s) (ht : t.timers = s.timers)
    (hp : t.pollTimer = s.pollTimer) (hc : t.currentAccount = s.currentAccount) :
    TimerInv t := by
  unfold TimerInv at *
  rw [ht, hp, hc]
  exact h

theorem timerOk_congr {s t : State} (h : TimerOk s) (ht : t.timers = s.timers)
    (hp : t.pollTimer = s.pollTimer) : TimerOk t := by
  unfold TimerOk at *
  rw [ht, hp]
  exact h

/-- What `handleDelete` does when it goes through: an account is present and the user, if asked,
agrees. -/
theorem handleDelete_proceeds (confirmDelete confirmAns : Bool) (meAns : Fetched MeReply)
    (s : State) (hacc : s.currentAccount ≠ none) (hgo : (confirmDelete && !confirmAns) = false)
    (h : TimerOk s) :
    (handleDelete confirmDelete confirmAns meAns s).currentAccount = none ∧
    (handleDelete confirmDelete confirmAns meAns s).timers = [] ∧
    (handleDelete confirmDelete confirmAns meAns s).pollTimer = none ∧
    (handleDelete confirmDelete confirmAns meAns s).lastMessageIds = JsSet.empty ∧
    (handleDelete confirmDelete confirmAns meAns s).localStorage = none := by
  unfold handleDelete
  cases hcur : s.currentAccount with
  | none => exact absurd hcur hacc
  | some a =>
    dsimp only
    rw [hgo]
    simp only [Bool.false_eq_true, if_false]
    generalize hs2 : ({ (if confirmDelete = true then s.emit Effect.confirm else s) with
      ui := { (if confirmDelete = true then s.emit Effect.confirm else s).ui with
        btnDeleteDisabled := true, btnDeleteText := "DELETING..." } } : State) = s2
    have hok2 : TimerOk s2 := by
      subst hs2
      cases confirmDelete
      · exact h
      · exact h
    obtain ⟨d1, d2, d3, d4, d5, -⟩ := deleteRemote_frame (some a) meAns s2
    have hok4 : TimerOk { deleteRemote (some a) meAns s2 with localStorage := none } :=
      timerOk_congr hok2 d4 d5
    obtain ⟨u1, u2, u3, u4, u5, -⟩ := updateUIAccount_none _ hok4
    exact ⟨u1, u2, u3, u4, u5⟩

/-- What `handleDelete` does otherwise: nothing but, possibly, showing the dialog. -/
theorem handleDelete_stays (confirmDelete confirmAns : Bool) (meAns : Fetched MeReply)
    (s : State) (hstay : s.currentAccount = none ∨ (confirmDelete && !confirmAns) = true) :
    (handleDelete confirmDelete confirmAns meAns s).currentAccount = s.currentAccount ∧
    (handleDelete confirmDelete confirmAns meAns s).timers = s.timers ∧
    (handleDelete confirmDelete confirmAns meAns s).pollTimer = s.pollTimer ∧
    (handleDelete confirmDelete confirmAns meAns s).lastMessageIds = s.lastMessageIds ∧
    (handleDelete confirmDelete confirmAns meAns s).localStorage = s.localStorage := by
  unfold handleDelete
  cases hcur : s.currentAccount with
  | none => simp [hcur]
  | some a =>
    rcases hstay with hnone | hgo
    · rw [hcur] at hnone
      exact absurd hnone (by simp)
    · dsimp only
      rw [hgo]
      simp only [if_true]
      cases confirmDelete <;> simp [State.emit, hcur]

/-- The two ways `handleDelete` can end. -/
theorem handleDelete_cases (confirmDelete confirmAns : Bool) (meAns : Fetched MeReply)
    (s : State) (h : TimerOk s) :
    ((handleDelete confirmDelete confirmAns meAns s).currentAccount = none ∧
      (handleDelete confirmDelete confirmAns meAns s).timers = [] ∧
      (handleDelete confirmDelete confirmAns meAns s).pollTimer = none ∧
      (handleDelete confirmDelete confirmAns meAns s).lastMessageIds = JsSet.empty) ∨
    ((handleDelete confirmDelete confirmAns meAns s).currentAccount = s.currentAccount ∧
      (handleDelete confirmDelete confirmAns meAns s).timers = s.timers ∧
      (handleDelete confirmDelete confirmAns meAns s).pollTimer = s.pollTimer) := by
  by_cases hacc : s.currentAccount = none
  · obtain ⟨h1, h2, h3, -⟩ := handleDelete_stays confirmDelete confirmAns meAns s (Or.inl hacc)
    exact Or.inr ⟨h1, h2, h3⟩
  · cases hgo : (confirmDelete && !confirmAns)
    · obtain ⟨h1, h2, h3, h4, -⟩ :=
        handleDelete_proceeds confirmDelete confirmAns meAns s hacc hgo h
      exact Or.inl ⟨h1, h2, h3, h4⟩
    · obtain ⟨h1, h2, h3, -⟩ := handleDelete_stays confirmDelete confirmAns meAns s (Or.inr hgo)
      exact Or.inr ⟨h1, h2, h3⟩

/-- The two ways the handling of a listing response can end. -/
theorem loadInboxFinish_cases (resp : InboxResponse) (meAns : Fetched MeReply) (s : State)
    (h : TimerOk s) :
    ((loadInboxFinish resp meAns s).currentAccount = none ∧
      (loadInboxFinish resp meAns s).timers = [] ∧
      (loadInboxFinish resp meAns s).pollTimer = none ∧
      (loadInboxFinish resp meAns s).lastMessageIds = JsSet.empty) ∨
    ((loadInboxFinish resp meAns s).currentAccount = s.currentAccount ∧
      (loadInboxFinish resp meAns s).timers = s.timers ∧
      (loadInboxFinish resp meAns s).pollTimer = s.pollTimer) := by
  unfold loadInboxFinish
  cases resp with
  | networkError message =>
    obtain ⟨e1, -, -, e4, e5, -⟩ := showInboxError_frame ("Error loading inbox: " ++ message) s
    exact Or.inr ⟨e1, e4, e5⟩
  | http status body =>
    dsimp only
    by_cases h401 : status = 401
    · rw [if_pos h401]
      obtain ⟨e1, -, -, e4, e5, -⟩ :=
        showInboxError_frame "Session expired. Please generate a new email." s
      rcases handleDelete_cases false false meAns _ (timerOk_congr h e4 e5) with hc | ⟨c1, c2, c3⟩
      · exact Or.inl hc
      · exact Or.inr ⟨c1.trans e1, c2.trans e4, c3.trans e5⟩
    · rw [if_neg h401]
      cases hok : statusOk status
      · obtain ⟨e1, -, -, e4, e5, -⟩ := showInboxError_frame "Failed to fetch messages." s
        exact Or.inr ⟨e1, e4, e5⟩
      · simp only [Bool.not_true, Bool.false_eq_true, if_false]
        cases body with
        | invalid message =>
          obtain ⟨e1, -, -, e4, e5, -⟩ :=
            showInboxError_frame ("Error loading inbox: " ++ message) s
          exact Or.inr ⟨e1, e4, e5⟩
        | null =>
          obtain ⟨e1, -, -, e4, e5, -⟩ :=
            showInboxError_frame ("Error loading inbox: " ++ nullAccess) s
          exact Or.inr ⟨e1, e4, e5⟩
        | listing member =>
          obtain ⟨e1, -, e3, e4⟩ := processListing_frame (member.getD []) s
          exact Or.inr ⟨e1, e3, e4⟩

/-- The two ways `generate` can end: a new account is installed with an empty tracked set and a
timer, or the variables are as before. -/
theorem generate_cases (draws : List (Fin 36)) (meAns : Fetched MeReply)
    (domainsAns : Fetched DomainsPage) (createAns : Fetched Unit) (tokenAns : Fetched TokenReply)
    (s : State) (h : TimerOk s) :
    ((generate draws meAns domainsAns createAns tokenAns s).currentAccount ≠ none ∧
      (∃ k, k ≠ 0 ∧ (generate draws meAns domainsAns createAns tokenAns s).timers = [k] ∧
        (generate draws meAns domainsAns createAns tokenAns s).pollTimer = some k) ∧
      (generate draws meAns domainsAns createAns tokenAns s).lastMessageIds = JsSet.empty) ∨
    ((generate draws meAns domainsAns createAns tokenAns s).currentAccount = s.currentAccount ∧
      (generate draws meAns domainsAns createAns tokenAns s).timers = s.timers ∧
      (generate draws meAns domainsAns createAns tokenAns s).pollTimer = s.pollTimer ∧
      (generate draws meAns domainsAns createAns tokenAns s).lastMessageIds =
        s.lastMessageIds) := by
  unfold generate
  dsimp only
  generalize hs2 : (match s.currentAccount with
    | some acc => deleteRemote (some acc) meAns { s with ui := { s.ui with
        btnGenerateDisabled := true
        btnGenerateText := "CREATING..."
        acctInfo := "Status: Requesting new email..." } }
    | none => { s with ui := { s.ui with
        btnGenerateDisabled := true
        btnGenerateText := "CREATING..."
        acctInfo := "Status: Requesting new email..." } }) = s2
  have hf : s2.currentAccount = s.currentAccount ∧ s2.lastMessageIds = s.lastMessageIds ∧
      s2.timers = s.timers ∧ s2.pollTimer = s.pollTimer := by
    subst hs2
    split
    · obtain ⟨d1, d2, -, d4, d5, -⟩ := deleteRemote_frame (some ‹Account›) meAns
        { s with ui := { s.ui with
          btnGenerateDisabled := true
          btnGenerateText := "CREATING..."
          acctInfo := "Status: Requesting new email..." } }
      exact ⟨d1, d2, d4, d5⟩
    · exact ⟨rfl, rfl, rfl, rfl⟩
  obtain ⟨c1, c2, c3, c4⟩ := createAccount_frame draws domainsAns createAns tokenAns s2
  rcases hca : createAccount draws domainsAns createAns tokenAns s2 with ⟨t, r⟩
  rw [hca] at c1 c2 c3 c4
  dsimp only at c1 c2 c3 c4
  cases r with
  | error message =>
    dsimp only
    refine Or.inr ⟨?_, ?_, ?_, ?_⟩
    · exact c1.trans hf.1
    · exact c3.trans hf.2.2.1
    · exact c4.trans hf.2.2.2
    · exact c2.trans hf.2.1
  | ok acc =>
    dsimp only
    have hok : TimerOk { t with lastMessageIds := JsSet.empty } :=
      timerOk_congr h (c3.trans hf.2.2.1) (c4.trans hf.2.2.2)
    obtain ⟨u1, u2, u3, -⟩ := updateUIAccount_some acc _ hok
    exact Or.inl ⟨by rw [u1]; simp, u2, u3⟩

theorem copyToClipboard_frame (written : Bool) (message : String) (s : State) :
    (copyToClipboard written message s).currentAccount = s.currentAccount ∧
    (copyToClipboard written message s).timers = s.timers ∧
    (copyToClipboard written message s).pollTimer = s.pollTimer ∧
    (copyToClipboard written message s).lastMessageIds = s.lastMessageIds := by
  unfold copyToClipboard State.emit
  split
  · simp
  · split
    · simp
    · cases written <;> simp

/-- Every event keeps the timer invariant. -/
theorem step_timerInv (s : State) (e : Event) (h : TimerInv s) : TimerInv (step s e) := by
  cases e with
  | init => exact updateUIAccount_timerInv _ s (timerOk_of_timerInv h)
  | updateUIAccount acc => exact updateUIAccount_timerInv acc s (timerOk_of_timerInv h)
  | generate draws meAns domainsAns createAns tokenAns =>
    rcases generate_cases draws meAns domainsAns createAns tokenAns s (timerOk_of_timerInv h) with
      ⟨g1, ⟨k, hk, g2, g3⟩, -⟩ | ⟨g1, g2, g3, -⟩
    · exact Or.inr ⟨k, hk, g2, g3, g1⟩
    · exact timerInv_congr h g2 g3 g1
  | handleDelete confirmDelete confirmAns meAns =>
    rcases handleDelete_cases confirmDelete confirmAns meAns s (timerOk_of_timerInv h) with
      ⟨g1, g2, g3, -⟩ | ⟨g1, g2, g3⟩
    · exact Or.inl ⟨g2, g3, g1⟩
    · exact timerInv_congr h g2 g3 g1
  | copyToClipboard written message =>
    obtain ⟨g1, g2, g3, -⟩ := copyToClipboard_frame written message s
    exact timerInv_congr h g2 g3 g1
  | copyReset => exact updateUIAccount_timerInv _ s (timerOk_of_timerInv h)
  | loadInboxStart silent =>
    obtain ⟨g1, -, -, g4, g5⟩ := loadInboxStart_frame silent s
    exact timerInv_congr h g4 g5 g1
  | loadInboxFinish resp meAns =>
    rcases loadInboxFinish_cases resp meAns s (timerOk_of_timerInv h) with ⟨g1, g2, g3, -⟩ | ⟨g1, g2, g3⟩
    · exact Or.inl ⟨g2, g3, g1⟩
    · exact timerInv_congr h g2 g3 g1
  | startAutoPoll =>
    obtain ⟨g1, -⟩ := startAutoPoll_frame s
    obtain ⟨hn, hs⟩ := startAutoPoll_timers s (timerOk_of_timerInv h)
    by_cases hacc : s.currentAccount = none
    · obtain ⟨k1, k2⟩ := hn hacc
      exact Or.inl ⟨k1, k2, g1.trans hacc⟩
    · obtain ⟨k, hk, k1, k2⟩ := hs hacc
      exact Or.inr ⟨k, hk, k1, k2, fun hc => hacc (g1.symm.trans hc)⟩

theorem run_timerInv (events : List Event) (s : State) (h : TimerInv s) :
    TimerInv (run s events) := by
  induction events generalizing s with
  | nil => exact h
  | cons e rest ih => exact ih (step s e) (step_timerInv s e h)

theorem reachable_timerInv (s : State) (h : Reachable s) : TimerInv s := by
  obtain ⟨ui, stored, events, rfl⟩ := h
  exact run_timerInv events _ (Or.inl ⟨rfl, rfl, rfl⟩)

/-! ## What is recorded in the trace -/

theorem updateUIAccount_none_trace (s : State) : (updateUIAccount none s).trace = s.trace := by
  unfold updateUIAccount
  dsimp only
  exact (stopAutoPoll_frame _).2.2.2

/-- Without the dialog, `handleDelete` records requests only. -/
theorem handleDelete_false_trace (confirmAns : Bool) (meAns : Fetched MeReply) (s : State) :
    ∃ es, (handleDelete false confirmAns meAns s).trace = s.trace ++ es ∧
      ∀ e ∈ es, ∃ r, e = Effect.request r := by
  unfold handleDelete
  cases hcur : s.currentAccount with
  | none => exact ⟨[], by simp, by simp⟩
  | some a =>
    simp only [Bool.false_and, Bool.false_eq_true, if_false]
    obtain ⟨es, h1, h2⟩ := deleteRemote_trace (some a) meAns
      { s with ui := { s.ui with btnDeleteDisabled := true, btnDeleteText := "DELETING..." } }
    refine ⟨es, ?_, h2⟩
    dsimp only
    rw [updateUIAccount_none_trace]
    exact h1

/-- The handling of a listing response records requests and, possibly, the new-mail flag. -/
theorem loadInboxFinish_trace (resp : InboxResponse) (meAns : Fetched MeReply) (s : State) :
    ∃ es, (loadInboxFinish resp meAns s).trace = s.trace ++ es ∧
      ∀ e ∈ es, (∃ r, e = Effect.request r) ∨
        (e = Effect.showNewTag ∧ 0 < s.lastMessageIds.size) := by
  unfold loadInboxFinish
  cases resp with
  | networkError message => exact ⟨[], by simp [showInboxError], by simp⟩
  | http status body =>
    dsimp only
    by_cases h401 : status = 401
    · rw [if_pos h401]
      obtain ⟨es, h1, h2⟩ := handleDelete_false_trace false meAns
        (showInboxError "Session expired. Please generate a new email." s)
      exact ⟨es, h1, fun e he => Or.inl (h2 e he)⟩
    · rw [if_neg h401]
      cases hok : statusOk status
      · exact ⟨[], by simp [showInboxError], by simp⟩
      · simp only [Bool.not_true, Bool.false_eq_true, if_false]
        cases body with
        | invalid message => exact ⟨[], by simp [showInboxError], by simp⟩
        | null => exact ⟨[], by simp [showInboxError], by simp⟩
        | listing member =>
          refine ⟨_, processListing_trace (member.getD []) s, ?_⟩
          intro e he
          split at he
          · rename_i hnew
            rw [isNew_ofList_iff] at hnew
            rw [List.mem_singleton] at he
            exact Or.inr ⟨he, hnew.1⟩
          · simp at he

theorem loadInboxFinish_quiet_of_empty (resp : InboxResponse) (meAns : Fetched MeReply)
    (s : State) (h : s.lastMessageIds = JsSet.empty) :
    Effect.showNewTag ∉ effectsSince s (loadInboxFinish resp meAns s) := by
  obtain ⟨es, h1, h2⟩ := loadInboxFinish_trace resp meAns s
  rw [effectsSince_append s _ es h1]
  intro hmem
  rcases h2 _ hmem with ⟨r, hr⟩ | ⟨-, hpos⟩
  · cases hr
  · rw [h] at hpos
    simp [JsSet.size, JsSet.empty] at hpos

/-- What `createAccount` returns and stores when it succeeds. -/
theorem createAccount_ok (draws : List (Fin 36)) (domainsAns : Fetched DomainsPage)
    (createAns : Fetched Unit) (tokenAns : Fetched TokenReply) (s t : State) (acc : Account)
    (h : createAccount draws domainsAns createAns tokenAns s = (t, Except.ok acc)) :
    t.localStorage = some (jsonStringify acc.toJs) ∧
      (∃ addr pwd, addr ≠ "" ∧ acc.address = JsVal.string addr ∧
        acc.password = JsVal.string pwd) ∧
      acc.token.isTruthy = true := by
  unfold createAccount getDomains at h
  cases domainsAns with
  | failed m => simp at h
  | nonJson => simp at h
  | json d =>
    dsimp only at h
    cases hd : d.member.getD [] with
    | nil => rw [hd] at h; simp at h
    | cons first rest =>
      rw [hd] at h
      dsimp only at h
      have fin : ∀ (u : State) (tokenRes : TokenReply),
          (if (!tokenRes.token.isTruthy) = true then
              (u, Except.error "Failed to get auth token after account creation.")
            else
              ({ u with localStorage := some (jsonStringify (Account.toJs
                  { address := JsVal.string
                      ("user" ++ rand 6 draws ++ "@" ++ domainText first.domain),
                    password := JsVal.string ("pass" ++ rand 12 (List.drop 6 draws)),
                    token := tokenRes.token })) },
                Except.ok
                  { address := JsVal.string
                      ("user" ++ rand 6 draws ++ "@" ++ domainText first.domain),
                    password := JsVal.string ("pass" ++ rand 12 (List.drop 6 draws)),
                    token := tokenRes.token }))
            = (t, Except.ok acc) →
          t.localStorage = some (jsonStringify acc.toJs) ∧
            (∃ addr pwd, addr ≠ "" ∧ acc.address = JsVal.string addr ∧
              acc.password = JsVal.string pwd) ∧
            acc.token.isTruthy = true := by
        intro u tokenRes hm
        cases htr : tokenRes.token.isTruthy with
        | false => rw [htr] at hm; simp at hm
        | true =>
          rw [htr] at hm
          simp only [Bool.not_true, Bool.false_eq_true, if_false, Prod.mk.injEq,
            Except.ok.injEq] at hm
          obtain ⟨ht, hacc⟩ := hm
          subst ht
          subst hacc
          refine ⟨rfl, ⟨_, _, ?_, rfl, rfl⟩, htr⟩
          intro hempty
          have hlen := congrArg String.length hempty
          simp only [String.length_append] at hlen
          have h4 : "user".length = 4 := by decide
          have h0 : "".length = 0 := by decide
          omega
      cases createAns with
      | failed m => simp at h
      | nonJson =>
        cases tokenAns with
        | failed m => simp at h
        | nonJson => simp at h
        | json tokenRes => exact fin _ tokenRes h
      | json v =>
        cases tokenAns with
        | failed m => simp at h
        | nonJson => simp at h
        | json tokenRes => exact fin _ tokenRes h

theorem jsonImageFields_cons (k : String) (v : JsVal) (rest : JsFields)
    (hv : v ≠ JsVal.undefined) :
    jsonImageFields (JsFields.cons k v rest) =
      JsFields.cons k (jsonImage v) (jsonImageFields rest) := by
  cases v <;> first | exact absurd rfl hv | simp [jsonImageFields]

/-- A stored object without a password, with a truthy address and token, is taken for an
account by `loadStored`. -/
theorem loadStored_without_password :
    loadStored (initialState sampleUI (some (JsonText.document
        (JsVal.object (JsFields.cons "address" (JsVal.string "a@b.c")
          (JsFields.cons "token" (JsVal.string "t") JsFields.nil)))))) =
      some { address := JsVal.string "a@b.c", password := JsVal.undefined,
             token := JsVal.string "t" } := by
  decide

/-- What `loadStored` reads after `JSON.stringify` of a record whose address and password are
strings and whose token is truthy. -/
theorem loadStored_of_stringify (t : State) (acc : Account) (addr pwd : String)
    (hst : t.localStorage = some (jsonStringify acc.toJs)) (haddr : addr ≠ "")
    (ha : acc.address = JsVal.string addr) (hp : acc.password = JsVal.string pwd)
    (htok : acc.token.isTruthy = true) :
    loadStored t =
      (if (jsonImage acc.token).isTruthy = true then
        some { acc with token := jsonImage acc.token } else none) := by
  have hne : acc.token ≠ JsVal.undefined := by
    intro hu
    rw [hu] at htok
    simp [JsVal.isTruthy] at htok
  have himg : jsonImage acc.toJs =
      JsVal.object (JsFields.cons "address" (JsVal.string addr)
        (JsFields.cons "password" (JsVal.string pwd)
          (JsFields.cons "token" (jsonImage acc.token) JsFields.nil))) := by
    unfold Account.toJs
    rw [ha, hp, jsonImage, jsonImageFields_cons _ _ _ (by simp),
      jsonImageFields_cons _ _ _ (by simp), jsonImageFields_cons _ _ _ hne]
    simp [jsonImage, jsonImageFields]
  have hat : (JsVal.string addr).isTruthy = true := by
    simpa [JsVal.isTruthy] using haddr
  unfold loadStored
  rw [hst]
  simp only [jsonStringify, jsonParse, himg]
  have e1 : (JsVal.object (JsFields.cons "address" (JsVal.string addr)
      (JsFields.cons "password" (JsVal.string pwd)
        (JsFields.cons "token" (jsonImage acc.token) JsFields.nil)))).property "address" =
      JsVal.string addr := by
    simp [JsVal.property, JsFields.get]
  have e2 : (JsVal.object (JsFields.cons "address" (JsVal.string addr)
      (JsFields.cons "password" (JsVal.string pwd)
        (JsFields.cons "token" (jsonImage acc.token) JsFields.nil)))).property "password" =
      JsVal.string pwd := by
    simp [JsVal.property, JsFields.get]
  have e3 : (JsVal.object (JsFields.cons "address" (JsVal.string addr)
      (JsFields.cons "password" (JsVal.string pwd)
        (JsFields.cons "token" (jsonImage acc.token) JsFields.nil)))).property "token" =
      jsonImage acc.token := by
    simp [JsVal.property, JsFields.get]
  simp only [Account.ofJs, e1, e2, e3, hat, JsVal.isTruthy, Bool.true_and]
  cases acc with
  | mk a p k =>
    simp only at ha hp
    subst ha
    subst hp
    simp [haddr]

theorem sampleActive_reachable : Reachable sampleActive :=
  ⟨sampleUI, some (jsonStringify sampleAccount.toJs), [Event.init], rfl⟩

/-! ## Reset of the tracked set (C3) -/

/-- C3, as the claim states it, fails: identifiers seen for the old mailbox can become the
baseline of the new one. On `sampleSeen`, which tracks `a` for `sampleAccount`, a poll is started
with the token `tok1`; `generate` then installs `sampleCreated` and empties the tracked set; the
answer to the poll of the old mailbox, listing `a`, is handled next: the account is still
`sampleCreated`, the tracked set is `a`, and the first answer for the new mailbox, listing `b`,
raises the new-mail flag against it. -/
theorem old_identifiers_become_baseline :
    sampleSeen.lastMessageIds = JsSet.mk ["a"] ∧
    Effect.request (Request.getMessages "tok1") ∈ effectsSince sampleSeen sampleReplaced ∧
    sampleReplaced.currentAccount = some sampleCreated ∧
    sampleReplaced.currentAccount ≠ sampleSeen.currentAccount ∧
    sampleReplaced.lastMessageIds = JsSet.empty ∧
    sampleStale.currentAccount = some sampleCreated ∧
    sampleStale.lastMessageIds = JsSet.mk ["a"] ∧
    Effect.showNewTag ∈
      effectsSince sampleStale
        (loadInboxFinish (okListing [messageB]) Fetched.nonJson sampleStale) := by
  decide

/-- C3 (amended): in every state of the page, when a handler of the script (`generate`,
`handleDelete`, the handling of a listing response with its 401 path, or any other event than a
bare call of `updateUIAccount`; `init` from the initial state) changes `currentAccount`, then
right after it `lastMessageIds` is the empty set, and a listing response handled in that state
does not raise the new-mail flag. -/
theorem lastMessageIds_reset_on_account_change (s : State) (e : Event) (hs : Reachable s)
    (he : ∀ acc, e ≠ Event.updateUIAccount acc)
    (hi : e = Event.init → ∃ ui stored, s = initialState ui stored)
    (hchg : (step s e).currentAccount ≠ s.currentAccount) :
    (step s e).lastMessageIds = JsSet.empty ∧
      ∀ resp meAns,
        Effect.showNewTag ∉ effectsSince (step s e) (loadInboxFinish resp meAns (step s e)) := by
  have hok : TimerOk s := timerOk_of_timerInv (reachable_timerInv s hs)
  have key : (step s e).lastMessageIds = JsSet.empty := by
    cases e with
    | init =>
      obtain ⟨ui, stored, rfl⟩ := hi rfl
      show (updateUIAccount (loadStored (initialState ui stored))
        (initialState ui stored)).lastMessageIds = JsSet.empty
      cases loadStored (initialState ui stored) with
      | none => exact (updateUIAccount_none _ hok).2.2.2.1
      | some a => exact (updateUIAccount_some a _ hok).2.2.1
    | updateUIAccount acc => exact absurd rfl (he acc)
    | generate draws meAns domainsAns createAns tokenAns =>
      rcases generate_cases draws meAns domainsAns createAns tokenAns s hok with
        ⟨-, -, g⟩ | ⟨g, -⟩
      · exact g
      · exact absurd g hchg
    | handleDelete confirmDelete confirmAns meAns =>
      rcases handleDelete_cases confirmDelete confirmAns meAns s hok with
        ⟨-, -, -, g⟩ | ⟨g, -⟩
      · exact g
      · exact absurd g hchg
    | copyToClipboard written message =>
      exact absurd (copyToClipboard_frame written message s).1 hchg
    | copyReset =>
      have hsame : (step s Event.copyReset).currentAccount = s.currentAccount := by
        show (updateUIAccount s.currentAccount s).currentAccount = s.currentAccount
        cases hc : s.currentAccount with
        | none => exact (updateUIAccount_none s hok).1
        | some a => exact (updateUIAccount_some a s hok).1
      exact absurd hsame hchg
    | loadInboxStart silent => exact absurd (loadInboxStart_frame silent s).1 hchg
    | loadInboxFinish resp meAns =>
      rcases loadInboxFinish_cases resp meAns s hok with ⟨-, -, -, g⟩ | ⟨g, -⟩
      · exact g
      · exact absurd g hchg
    | startAutoPoll => exact absurd (startAutoPoll_frame s).1 hchg
  exact ⟨key, fun resp meAns => loadInboxFinish_quiet_of_empty resp meAns _ key⟩

/-- Witness of C3 (amended): on `sampleSeen`, which tracks `a`, a deletion the user confirms changes the
account and empties the tracked set. -/
theorem lastMessageIds_reset_on_account_change_witness :
    sampleSeen.lastMessageIds = JsSet.mk ["a"] ∧
      (step sampleSeen (Event.handleDelete true true Fetched.nonJson)).currentAccount ≠
        sampleSeen.currentAccount ∧
      (step sampleSeen (Event.handleDelete true true Fetched.nonJson)).lastMessageIds =
        JsSet.empty :=
  ⟨by decide, by decide,
    (lastMessageIds_reset_on_account_change sampleSeen
      (Event.handleDelete true true Fetched.nonJson)
      ⟨sampleUI, some (jsonStringify sampleAccount.toJs),
        [Event.init, Event.loadInboxFinish (okListing [messageA]) Fetched.nonJson], rfl⟩
      (fun _ h => Event.noConfusion h) (fun h => Event.noConfusion h) (by decide)).1⟩

/-! ## The poll timer (C4) -/

/-- C4: in every state the page can reach from the initial state through `init`,
`updateUIAccount`, `generate`, `handleDelete`, `copyToClipboard` and its delayed
`updateUIAccount`, the two parts of `loadInbox`, and `startAutoPoll`, at most one interval timer
is live, `pollTimer` is the handle of every live timer and is `null` when none is live, and a
timer is live if and only if `currentAccount` is not `null`; calling `startAutoPoll` any number
of times from such a state leaves at most one timer live. -/
theorem one_timer_iff_account (s : State) (hs : Reachable s) :
    s.timers.length ≤ 1 ∧
    (∀ k ∈ s.timers, s.pollTimer = some k) ∧
    (s.timers = [] → s.pollTimer = none) ∧
    (s.timers ≠ [] ↔ s.currentAccount ≠ none) ∧
    (∀ n, (Nat.iterate startAutoPoll n s).timers.length ≤ 1) := by
  have shape : ∀ u : State, TimerInv u →
      u.timers.length ≤ 1 ∧ (∀ k ∈ u.timers, u.pollTimer = some k) ∧
        (u.timers = [] → u.pollTimer = none) ∧ (u.timers ≠ [] ↔ u.currentAccount ≠ none) := by
    intro u hu
    rcases hu with ⟨ht, hp, hc⟩ | ⟨k, -, ht, hp, hc⟩
    · rw [ht, hp, hc]
      simp
    · rw [ht, hp]
      simp [hc]
  have iter : ∀ (n : Nat) (u : State), TimerInv u → TimerInv (Nat.iterate startAutoPoll n u) := by
    intro n
    induction n with
    | zero => intro u hu; exact hu
    | succ m ih =>
      intro u hu
      rw [Function.iterate_succ_apply]
      exact ih _ (step_timerInv u Event.startAutoPoll hu)
  have hinv := reachable_timerInv s hs
  obtain ⟨h1, h2, h3, h4⟩ := shape s hinv
  exact ⟨h1, h2, h3, h4, fun n => (shape _ (iter n s hinv)).1⟩

/-- Witness of C4: the page `sampleActive` has an account and exactly one live timer. -/
theorem one_timer_iff_account_witness :
    sampleActive.timers = [1] ∧ sampleActive.pollTimer = some 1 ∧
      (sampleActive.timers ≠ [] ↔ sampleActive.currentAccount ≠ none) :=
  ⟨by decide, by decide, (one_timer_iff_account sampleActive sampleActive_reachable).2.2.2.1⟩

/-! ## Session expiry (C5) -/

/-- C5: in every state of the page with a current account, once the handling of a listing
response with status 401 is over, the entry under `LS_KEY` is removed, `currentAccount` is
`null`, no timer is live and `pollTimer` is `null`, and `lastMessageIds` is empty; the user is
not asked for a confirmation, and this holds for every answer to the follow-up request. -/
theorem session_expiry_clears (s : State) (hs : Reachable s) (hacc : s.currentAccount ≠ none)
    (body : InboxBody) (meAns : Fetched MeReply) :
    (loadInboxFinish (InboxResponse.http 401 body) meAns s).localStorage = none ∧
    (loadInboxFinish (InboxResponse.http 401 body) meAns s).currentAccount = none ∧
    (loadInboxFinish (InboxResponse.http 401 body) meAns s).timers = [] ∧
    (loadInboxFinish (InboxResponse.http 401 body) meAns s).pollTimer = none ∧
    (loadInboxFinish (InboxResponse.http 401 body) meAns s).lastMessageIds = JsSet.empty ∧
    Effect.confirm ∉
      effectsSince s (loadInboxFinish (InboxResponse.http 401 body) meAns s) := by
  have hok : TimerOk s := timerOk_of_timerInv (reachable_timerInv s hs)
  obtain ⟨es, h1, h2⟩ := loadInboxFinish_trace (InboxResponse.http 401 body) meAns s
  have hno : Effect.confirm ∉
      effectsSince s (loadInboxFinish (InboxResponse.http 401 body) meAns s) := by
    rw [effectsSince_append s _ es h1]
    intro hmem
    rcases h2 _ hmem with ⟨r, hr⟩ | ⟨hr, -⟩
    · cases hr
    · cases hr
  have hfin : loadInboxFinish (InboxResponse.http 401 body) meAns s =
      handleDelete false false meAns
        (showInboxError "Session expired. Please generate a new email." s) := by
    simp [loadInboxFinish]
  obtain ⟨e1, -, -, e4, e5, -⟩ :=
    showInboxError_frame "Session expired. Please generate a new email." s
  obtain ⟨d1, d2, d3, d4, d5⟩ := handleDelete_proceeds false false meAns
    (showInboxError "Session expired. Please generate a new email." s)
    (by rw [e1]; exact hacc) rfl (timerOk_congr hok e4 e5)
  rw [hfin] at hno ⊢
  exact ⟨d5, d1, d2, d3, d4, hno⟩

/-- Witness of C5: `sampleActive` is a state of the page with an account, and a 401 clears it. -/
theorem session_expiry_clears_witness :
    sampleActive.currentAccount ≠ none ∧
      (loadInboxFinish (InboxResponse.http 401 InboxBody.null) (Fetched.failed "HTTP 401")
        sampleActive).localStorage = none :=
  ⟨by decide,
    (session_expiry_clears sampleActive sampleActive_reachable (by decide) InboxBody.null
      (Fetched.failed "HTTP 401")).1⟩

/-! ## The stored credential (C6, C7, C8) -/

/-- C6, as the claim states it, fails: when the provider answers `POST /token` with the token
`1e999`, which `JSON.parse` reads as `Infinity`, `createAccount` succeeds and returns a record
with that token, and the `loadStored` that follows answers `null`. -/
theorem createAccount_loadStored_fails_on_overflow :
    (createAccount [] (Fetched.json ⟨some [⟨some "example.org"⟩]⟩) (Fetched.json ())
        (Fetched.json ⟨JsVal.number JsNumber.infinity⟩) (initialState sampleUI none)).2 =
      Except.ok sampleOverflow ∧
    loadStored
        (createAccount [] (Fetched.json ⟨some [⟨some "example.org"⟩]⟩) (Fetched.json ())
          (Fetched.json ⟨JsVal.number JsNumber.infinity⟩) (initialState sampleUI none)).1 =
      none :=
  ⟨rfl, by decide⟩

/-- C6 (amended): whenever `createAccount` succeeds and returns `acc`, the entry under `LS_KEY`
is the text `JSON.stringify(acc)`, the address and the token of `acc` are truthy, and the
`loadStored` that follows returns the record with the address and the password of `acc` and with
the token as `JSON.parse` reads it back, or `null` when that token is falsy. When the token is
read back as it was, which is so for every string, `loadStored` returns a record with the same
address, password and token as `acc`, and does not answer `null`. -/
theorem createAccount_loadStored_roundtrip (draws : List (Fin 36))
    (domainsAns : Fetched DomainsPage) (createAns : Fetched Unit) (tokenAns : Fetched TokenReply)
    (s t : State) (acc : Account)
    (h : createAccount draws domainsAns createAns tokenAns s = (t, Except.ok acc)) :
    t.localStorage = some (jsonStringify acc.toJs) ∧
    acc.address.isTruthy = true ∧ acc.token.isTruthy = true ∧
    loadStored t =
      (if (jsonImage acc.token).isTruthy = true then
        some { acc with token := jsonImage acc.token } else none) ∧
    (jsonImage acc.token = acc.token → loadStored t = some acc ∧ loadStored t ≠ none) ∧
    (∀ tok, acc.token = JsVal.string tok → loadStored t = some acc) := by
  obtain ⟨h1, ⟨addr, pwd, haddr, ha, hp⟩, h3⟩ :=
    createAccount_ok draws domainsAns createAns tokenAns s t acc h
  have hl := loadStored_of_stringify t acc addr pwd h1 haddr ha hp h3
  have hat : acc.address.isTruthy = true := by
    rw [ha]
    simpa [JsVal.isTruthy] using haddr
  have hsame : jsonImage acc.token = acc.token → loadStored t = some acc ∧ loadStored t ≠ none := by
    intro hj
    have : loadStored t = some acc := by
      rw [hl, hj, if_pos h3]
    exact ⟨this, by rw [this]; simp⟩
  refine ⟨h1, hat, h3, hl, hsame, ?_⟩
  intro tok htok
  exact (hsame (by rw [htok]; rfl)).1

/-- The state after the successful `createAccount` of the witness of C6. -/
theorem createAccount_sample :
    createAccount [] (Fetched.json ⟨some [⟨some "example.org"⟩]⟩) (Fetched.json ())
        (Fetched.json ⟨JsVal.string "tok2"⟩) (initialState sampleUI none) =
      ({ initialState sampleUI none with
          localStorage := some (jsonStringify sampleCreated.toJs)
          trace := [Effect.request Request.getDomains,
            Effect.request (Request.postAccounts "useraaaaaa@example.org" "passaaaaaaaaaaaa"),
            Effect.request (Request.postToken "useraaaaaa@example.org" "passaaaaaaaaaaaa")] },
        Except.ok sampleCreated) := by
  rfl

/-- Witness of C6 (amended): a provisioning that succeeds with the string token `tok2`, read back
by `loadStored`. -/
theorem createAccount_loadStored_roundtrip_witness :
    loadStored
        (createAccount [] (Fetched.json ⟨some [⟨some "example.org"⟩]⟩) (Fetched.json ())
          (Fetched.json ⟨JsVal.string "tok2"⟩) (initialState sampleUI none)).1 =
      some sampleCreated :=
  (createAccount_loadStored_roundtrip [] (Fetched.json ⟨some [⟨some "example.org"⟩]⟩)
    (Fetched.json ()) (Fetched.json ⟨JsVal.string "tok2"⟩) (initialState sampleUI none) _ _
    createAccount_sample).2.2.2.2.2 "tok2" rfl

/-- C7, at the failing input: on `sampleActive`, `generate` deletes the account at the provider
and then fails to create a new one (no mail domain); afterwards the entry under `LS_KEY` and
`currentAccount` still hold the credential of the deleted account. -/
theorem generate_keeps_credential_when_creation_fails :
    Request.deleteAccount "id1" "tok1" ∈
        requestsOf (effectsSince sampleActive
          (generate [] (Fetched.json ⟨some "id1"⟩) (Fetched.json ⟨some []⟩) Fetched.nonJson
            Fetched.nonJson sampleActive)) ∧
      (generate [] (Fetched.json ⟨some "id1"⟩) (Fetched.json ⟨some []⟩) Fetched.nonJson
        Fetched.nonJson sampleActive).localStorage = some (jsonStringify sampleAccount.toJs) ∧
      (generate [] (Fetched.json ⟨some "id1"⟩) (Fetched.json ⟨some []⟩) Fetched.nonJson
        Fetched.nonJson sampleActive).currentAccount = some sampleAccount := by
  decide

/-- C8, at the failing input: on `sampleActive`, the handling of a 401 sends `GET /me` to the
provider, and `DELETE /accounts/id1` as well when the provider answers with an identifier. -/
theorem session_expiry_sends_requests :
    requestsOf (effectsSince sampleActive
        (loadInboxFinish (InboxResponse.http 401 InboxBody.null) (Fetched.failed "HTTP 401")
          sampleActive)) = [Request.getMe "tok1"] ∧
      requestsOf (effectsSince sampleActive
        (loadInboxFinish (InboxResponse.http 401 InboxBody.null) (Fetched.json ⟨some "id1"⟩)
          sampleActive)) = [Request.getMe "tok1", Request.deleteAccount "id1" "tok1"] := by
  decide

end WowTempMail
